import Mathlib

/-!
Verification development for the left-turn routing server (`server.js`).

The embedding below translates the server's core logic into Lean:
geographic primitives (haversine distance, pseudo-bearing turn angle),
graph construction from raw OSM-style elements, the state-augmented
best-first search with its left-turn preference, path reconstruction,
and the HTTP-level request validation and route resolution.  Machine
floats are modelled by real numbers; the search's `while` loop and the
reconstruction loop are modelled with an explicit fuel parameter, where
running out of fuel is a distinguished outcome (the JavaScript program
would still be running).
-/

open Real

/-- A geographic coordinate, `{lat, lon}` in degrees. -/
structure Coord where
  lat : ℝ
  lon : ℝ

/-- JavaScript's `Math.atan2(y, x)`: the argument of the complex number
`x + y i`, in `(-π, π]`. -/
noncomputable def atan2 (y x : ℝ) : ℝ :=
  Complex.arg ((x : ℂ) + (y : ℝ) * Complex.I)

/-- `haversineDistance` from `server.js`: great-circle distance in meters
with Earth radius 6371e3. -/
noncomputable def haversineDistance (p1 p2 : Coord) : ℝ :=
  let R : ℝ := 6371000
  let phi1 := p1.lat * π / 180
  let phi2 := p2.lat * π / 180
  let dphi := (p2.lat - p1.lat) * π / 180
  let dlam := (p2.lon - p1.lon) * π / 180
  let a := Real.sin (dphi / 2) * Real.sin (dphi / 2) +
    Real.cos phi1 * Real.cos phi2 * Real.sin (dlam / 2) * Real.sin (dlam / 2)
  let c := 2 * atan2 (Real.sqrt a) (Real.sqrt (1 - a))
  R * c

/-- `calculateTurnAngle` from `server.js`: difference of the two
pseudo-bearings `atan2(Δlon, Δlat)`, in degrees, then the two sequential
normalization `if`s. -/
noncomputable def calculateTurnAngle (p1 p2 p3 : Coord) : ℝ :=
  let bearing1 := atan2 (p2.lon - p1.lon) (p2.lat - p1.lat)
  let bearing2 := atan2 (p3.lon - p2.lon) (p3.lat - p2.lat)
  let angle := (bearing2 - bearing1) * (180 / π)
  let angle1 := if angle > 180 then angle - 360 else angle
  if angle1 < -180 then angle1 + 360 else angle1

/-- The turn classes the search loop of `server.js` recognizes. -/
inductive Turn where
  | left
  | straight
deriving DecidableEq, Repr

/-- The classification at lines 236-240 of `server.js`: angles in
`[-150, -30]` are left turns, other angles of magnitude `< 30` are
straight, anything else is dropped. -/
noncomputable def classifyTurn (angle : ℝ) : Option Turn :=
  if -150 ≤ angle ∧ angle ≤ -30 then some .left
  else if |angle| < 30 then some .straight
  else none

/-- The length of a one-degree arc of meridian or equator in this model. -/
noncomputable def oneDegree : ℝ := 6371000 * (π / 180)

-- ### Association lists (JavaScript object maps with string keys) and
-- ### the sort-on-insert priority queue

/-- Lookup in a JavaScript-object-like association list. -/
def alFind {α β : Type} [DecidableEq α] (l : List (α × β)) (k : α) : Option β :=
  match l with
  | [] => none
  | (k', v) :: r => if k' = k then some v else alFind r k

/-- `obj[k] = v` on a JavaScript-object-like association list: replace in
place, or append a new binding. -/
def alUpdate {α β : Type} [DecidableEq α] (k : α) (v : β) (l : List (α × β)) :
    List (α × β) :=
  match l with
  | [] => [(k, v)]
  | (k', v') :: r => if k' = k then (k, v) :: r else (k', v') :: alUpdate k v r

/-- Inserting into the sorted frontier.  `PriorityQueue.enqueue` pushes and
then stable-sorts by priority, which on an already-sorted list places the
new element after every element of priority `≤ p`. -/
noncomputable def pqInsert {α : Type} (x : α) (p : ℝ) :
    List (α × ℝ) → List (α × ℝ)
  | [] => [(x, p)]
  | (y, q) :: r => if q ≤ p then (y, q) :: pqInsert x p r else (x, p) :: (y, q) :: r

/-- `nodes[n]` dereferenced: coordinates of node `n` (default irrelevant,
used only where the JavaScript code would have crashed on `undefined`). -/
def coordD (nodes : ℕ → Option Coord) (n : ℕ) : Coord :=
  (nodes n).getD ⟨0, 0⟩

-- ### The modified A* search of `findPath` (lines 199-272 of `server.js`)

/-- The mutable state of `findPath`'s `while` loop.  Search states
`(current, prev)` mirror the `"current:prev"` string keys. -/
structure LoopState where
  frontier : List ((ℕ × Option ℕ) × ℝ)
  gScore : List ((ℕ × Option ℕ) × ℝ)
  cameFrom : List ((ℕ × Option ℕ) × (ℕ × Option ℕ))

/-- First pass over the neighbors of the popped state (lines 225-241):
skip the immediate predecessor, treat the very first move as straight,
otherwise classify the turn angle and drop unclassified neighbors. -/
noncomputable def availableTurns (nodes : ℕ → Option Coord) (prev : Option ℕ)
    (current : ℕ) (neighbors : List ℕ) : List (Turn × ℕ) :=
  neighbors.filterMap fun nb =>
    if some nb = prev then none
    else
      match prev with
      | none => some (Turn.straight, nb)
      | some p =>
        match classifyTurn (calculateTurnAngle (coordD nodes p)
            (coordD nodes current) (coordD nodes nb)) with
        | some t => some (t, nb)
        | none => none

def isLeftPair (t : Turn × ℕ) : Bool :=
  match t.1 with
  | Turn.left => true
  | Turn.straight => false

def isStraightPair (t : Turn × ℕ) : Bool :=
  match t.1 with
  | Turn.left => false
  | Turn.straight => true

/-- Lines 243-247: if any left turn exists, only the left turns are
processed; otherwise the straight ones. -/
def turnsToProcess (ts : List (Turn × ℕ)) : List (Turn × ℕ) :=
  let lefts := ts.filter isLeftPair
  let straights := ts.filter isStraightPair
  if lefts = [] then straights else lefts

/-- Lines 250-268: relax one chosen turn.  The guard mirrors
`!gScore[neighborKey] || tentativeGScore < gScore[neighborKey]`, where a
recorded score of `0` is falsy and therefore re-accepted. -/
noncomputable def relaxTurn (endId : ℕ) (nodes : ℕ → Option Coord) (current : ℕ)
    (prev : Option ℕ) (st : LoopState) (turn : Turn × ℕ) : LoopState :=
  let nb := turn.2
  let distanceToNeighbor := haversineDistance (coordD nodes current) (coordD nodes nb)
  let turnPenalty : ℝ := if turn.1 = Turn.straight then 1.05 else 1
  let tentative := ((alFind st.gScore (current, prev)).getD 0) +
    distanceToNeighbor * turnPenalty
  let ok : Bool :=
    match alFind st.gScore (nb, some current) with
    | none => true
    | some g => if g = 0 ∨ tentative < g then true else false
  if ok then
    { frontier := pqInsert (nb, some current)
        (tentative + haversineDistance (coordD nodes nb) (coordD nodes endId))
        st.frontier
      gScore := alUpdate (nb, some current) tentative st.gScore
      cameFrom := alUpdate (nb, some current) (current, prev) st.cameFrom }
  else st

/-- One full body of the `while` loop after the goal test: classify, choose
the turns to process, and relax each of them in order. -/
noncomputable def processState (endId : ℕ) (graph : ℕ → Option (List ℕ))
    (nodes : ℕ → Option Coord) (current : ℕ) (prev : Option ℕ)
    (st : LoopState) : LoopState :=
  (turnsToProcess (availableTurns nodes prev current ((graph current).getD []))).foldl
    (relaxTurn endId nodes current prev) st

/-- Result of one `while`-loop iteration. -/
inductive StepRes where
  | found (cur : ℕ) (prev : Option ℕ) (gScore : List ((ℕ × Option ℕ) × ℝ))
      (cameFrom : List ((ℕ × Option ℕ) × (ℕ × Option ℕ)))
  | exhausted
  | next (st : LoopState)

/-- One iteration of `findPath`'s `while` loop: dequeue the minimum, test
the goal, otherwise process the state. -/
noncomputable def stepOnce (endId : ℕ) (graph : ℕ → Option (List ℕ))
    (nodes : ℕ → Option Coord) (st : LoopState) : StepRes :=
  match st.frontier with
  | [] => .exhausted
  | (s, _) :: rest =>
    if s.1 = endId then .found s.1 s.2 st.gScore st.cameFrom
    else .next (processState endId graph nodes s.1 s.2 ⟨rest, st.gScore, st.cameFrom⟩)

/-- Outcome of running the `while` loop with the given fuel. -/
inductive SearchOutcome where
  | outOfFuel
  | exhausted
  | found (cur : ℕ) (prev : Option ℕ) (gScore : List ((ℕ × Option ℕ) × ℝ))
      (cameFrom : List ((ℕ × Option ℕ) × (ℕ × Option ℕ)))

/-- The `while` loop of `findPath`, fuelled. -/
noncomputable def searchLoop (fuel : ℕ) (endId : ℕ) (graph : ℕ → Option (List ℕ))
    (nodes : ℕ → Option Coord) (st : LoopState) : SearchOutcome :=
  match fuel with
  | 0 => .outOfFuel
  | fuel + 1 =>
    match stepOnce endId graph nodes st with
    | .found c p gs cf => .found c p gs cf
    | .exhausted => .exhausted
    | .next st' => searchLoop fuel endId graph nodes st'

/-- Run exactly `n` non-terminal loop iterations (for observing the
intermediate mutable state). -/
noncomputable def stepN (n : ℕ) (endId : ℕ) (graph : ℕ → Option (List ℕ))
    (nodes : ℕ → Option Coord) (st : LoopState) : Option LoopState :=
  match n with
  | 0 => some st
  | n + 1 =>
    match stepOnce endId graph nodes st with
    | .next st' => stepN n endId graph nodes st'
    | _ => none

/-- The `while` loop of `reconstructPath` (lines 328-336), fuelled:
each step adds the distance of the segment between the head of the partial
path and the previous node, prepends the predecessor's current node and
follows the chain. -/
noncomputable def reconstructGo (fuel : ℕ)
    (cameFrom : List ((ℕ × Option ℕ) × (ℕ × Option ℕ)))
    (nodes : ℕ → Option Coord) (path : List ℕ) (total : ℝ)
    (key : ℕ × Option ℕ) (previousNode : Option Coord) :
    Option (List ℕ × ℝ) :=
  match fuel with
  | 0 => none
  | fuel + 1 =>
    match alFind cameFrom key with
    | none => some (path, total)
    | some (c, p) =>
      reconstructGo fuel cameFrom nodes (c :: path)
        (total + haversineDistance (coordD nodes (path.headD 0))
          (previousNode.getD ⟨0, 0⟩))
        (c, p) (p.bind nodes)

/-- `reconstructPath` from `server.js`.  Fuel `length + 1` is exact for
chain-shaped tables; `none` means the JavaScript loop would never exit
(cyclic predecessor table). -/
noncomputable def reconstructPath
    (cameFrom : List ((ℕ × Option ℕ) × (ℕ × Option ℕ)))
    (currentId : ℕ) (prevId : Option ℕ) (nodes : ℕ → Option Coord) :
    Option (List ℕ × ℝ) :=
  reconstructGo (cameFrom.length + 1) cameFrom nodes [currentId] 0
    (currentId, prevId) (prevId.bind nodes)

/-- Result of `findPath`: `null`, a `{path, distance}` record, or the
modelling artifact of insufficient fuel. -/
inductive SearchResult where
  | outOfFuel
  | noPath
  | found (path : List ℕ) (distance : ℝ)

/-- Lines 207-211: the initial frontier and score table. -/
noncomputable def initLoopState (startId endId : ℕ) (nodes : ℕ → Option Coord) :
    LoopState :=
  ⟨[((startId, none),
      haversineDistance (coordD nodes startId) (coordD nodes endId))],
    [((startId, none), 0)], []⟩

/-- `findPath` from `server.js`, fuelled. -/
noncomputable def findPath (fuel : ℕ) (startId endId : ℕ)
    (graph : ℕ → Option (List ℕ)) (nodes : ℕ → Option Coord) : SearchResult :=
  match searchLoop fuel endId graph nodes (initLoopState startId endId nodes) with
  | .outOfFuel => .outOfFuel
  | .exhausted => .noPath
  | .found c p _ cf =>
    match reconstructPath cf c p nodes with
    | some (path, d) => .found path d
    | none => .outOfFuel

/-- The recorded cumulative score of the terminal search state, observed at
the moment the goal is popped. -/
noncomputable def findPathTerminalGScore (fuel : ℕ) (startId endId : ℕ)
    (graph : ℕ → Option (List ℕ)) (nodes : ℕ → Option Coord) : Option ℝ :=
  match searchLoop fuel endId graph nodes (initLoopState startId endId nodes) with
  | .found c p gs _ => alFind gs (c, p)
  | _ => none

-- ### A concrete map where a straight neighbor coexists with a left one
-- (nodes 1..4; node 2 has a left neighbor 3 and a straight neighbor 4)

def graphC2 : ℕ → Option (List ℕ) := fun n =>
  if n = 1 then some [2] else if n = 2 then some [3, 4]
  else if n = 3 then some [] else if n = 4 then some [] else none

noncomputable def nodesC2 : ℕ → Option Coord := fun n =>
  if n = 1 then some ⟨0, 0⟩ else if n = 2 then some ⟨1, 0⟩
  else if n = 3 then some ⟨1, -1⟩ else if n = 4 then some ⟨2, 0⟩ else none

noncomputable def c2st1 : LoopState :=
  ⟨[((2, some 1), 1.05 * oneDegree + haversineDistance ⟨1, 0⟩ ⟨2, 0⟩)],
    [((1, none), 0), ((2, some 1), 1.05 * oneDegree)],
    [((2, some 1), (1, none))]⟩

noncomputable def c2st2 : LoopState :=
  ⟨[((3, some 2), 1.05 * oneDegree + haversineDistance ⟨1, 0⟩ ⟨1, -1⟩ +
      haversineDistance ⟨1, -1⟩ ⟨2, 0⟩)],
    [((1, none), 0), ((2, some 1), 1.05 * oneDegree),
      ((3, some 2), 1.05 * oneDegree + haversineDistance ⟨1, 0⟩ ⟨1, -1⟩)],
    [((2, some 1), (1, none)), ((3, some 2), (2, some 1))]⟩

-- ### The route resolution of the `/route` handler (lines 71-89)

/-- The three outcomes of the resolver stage of the handler, after both
endpoints have been snapped to nodes. -/
inductive RouteResult where
  | noPathFound
  | ok (path : List ℕ) (distance : ℝ)
  | pending

/-- Lines 71-89 of `server.js`: the handler runs `findPath` exactly once
and maps `null` to the 404 "no valid left-turn-only path" response,
otherwise answers with the result's path and distance.  (`pending` is the
fuel artifact.) -/
noncomputable def resolveRoute (fuel startId endId : ℕ)
    (graph : ℕ → Option (List ℕ)) (nodes : ℕ → Option Coord) : RouteResult :=
  match findPath fuel startId endId graph nodes with
  | .noPath => .noPathFound
  | .found p d => .ok p d
  | .outOfFuel => .pending

-- ### The spec's tiered turn-policy search (spec §4.4-§4.5), used to compare
-- ### the resolver of the code against the claimed tiered behaviour

/-- A turn policy as described in spec §4.3/§4.4. -/
structure TurnPolicy where
  allowLeft : Bool
  allowStraight : Bool
  allowRight : Bool
  allowUTurn : Bool

/-- Written from the spec's words (§4.4 step 3): classify one neighbor move
under a policy, returning the penalty factor when the move is allowed. -/
noncomputable def specPenalty (policy : TurnPolicy) (nodes : ℕ → Option Coord)
    (prev : Option ℕ) (current nb : ℕ) : Option ℝ :=
  if some nb = prev then (if policy.allowUTurn then some 2.5 else none)
  else
    match prev with
    | none => some 1.1
    | some p =>
      let angle := calculateTurnAngle (coordD nodes p) (coordD nodes current)
        (coordD nodes nb)
      if -150 ≤ angle ∧ angle ≤ -30 then
        (if policy.allowLeft then some 1 else none)
      else if |angle| < 30 then
        (if policy.allowStraight then some 1.1 else none)
      else if 30 ≤ angle ∧ angle ≤ 150 then
        (if policy.allowRight then some 5 else none)
      else none

/-- Written from the spec's words (§4.4 step 3, last two bullets): relax one
allowed neighbor; only strictly improving score updates are accepted. -/
noncomputable def specRelax (endId : ℕ) (policy : TurnPolicy)
    (nodes : ℕ → Option Coord) (current : ℕ) (prev : Option ℕ)
    (st : LoopState) (nb : ℕ) : LoopState :=
  match specPenalty policy nodes prev current nb with
  | none => st
  | some pen =>
    let tentative := ((alFind st.gScore (current, prev)).getD 0) +
      haversineDistance (coordD nodes current) (coordD nodes nb) * pen
    let ok : Bool :=
      match alFind st.gScore (nb, some current) with
      | none => true
      | some g => if tentative < g then true else false
    if ok then
      { frontier := pqInsert (nb, some current)
          (tentative + haversineDistance (coordD nodes nb) (coordD nodes endId))
          st.frontier
        gScore := alUpdate (nb, some current) tentative st.gScore
        cameFrom := alUpdate (nb, some current) (current, prev) st.cameFrom }
    else st

/-- One iteration of the spec's search (§4.4 steps 2-3): every neighbor in
`graph[cur]` is considered. -/
noncomputable def specStepOnce (endId : ℕ) (policy : TurnPolicy)
    (graph : ℕ → Option (List ℕ)) (nodes : ℕ → Option Coord)
    (st : LoopState) : StepRes :=
  match st.frontier with
  | [] => .exhausted
  | (s, _) :: rest =>
    if s.1 = endId then .found s.1 s.2 st.gScore st.cameFrom
    else .next (((graph s.1).getD []).foldl
      (specRelax endId policy nodes s.1 s.2) ⟨rest, st.gScore, st.cameFrom⟩)

/-- The spec's search loop, fuelled. -/
noncomputable def specLoop (fuel : ℕ) (endId : ℕ) (policy : TurnPolicy)
    (graph : ℕ → Option (List ℕ)) (nodes : ℕ → Option Coord)
    (st : LoopState) : SearchOutcome :=
  match fuel with
  | 0 => .outOfFuel
  | fuel + 1 =>
    match specStepOnce endId policy graph nodes st with
    | .found c p gs cf => .found c p gs cf
    | .exhausted => .exhausted
    | .next st' => specLoop fuel endId policy graph nodes st'

/-- Path reconstruction as the spec words it (§4.4): follow the predecessor
chain, prepending the predecessor's current node. -/
noncomputable def specChain (fuel : ℕ)
    (cameFrom : List ((ℕ × Option ℕ) × (ℕ × Option ℕ)))
    (key : ℕ × Option ℕ) (acc : List ℕ) : Option (List ℕ) :=
  match fuel with
  | 0 => none
  | fuel + 1 =>
    match alFind cameFrom key with
    | none => some (key.1 :: acc)
    | some k' => specChain fuel cameFrom k' (key.1 :: acc)

/-- The spec's `search` (§4.4): best-first search under a policy; the
returned cost is the terminal state's recorded score. -/
noncomputable def specSearch (fuel : ℕ) (policy : TurnPolicy)
    (startId endId : ℕ) (graph : ℕ → Option (List ℕ))
    (nodes : ℕ → Option Coord) : SearchResult :=
  match specLoop fuel endId policy graph nodes (initLoopState startId endId nodes) with
  | .outOfFuel => .outOfFuel
  | .exhausted => .noPath
  | .found c p gs cf =>
    match specChain (cf.length + 1) cf (c, p) [] with
    | some path => .found path ((alFind gs (c, p)).getD 0)
    | none => .outOfFuel

/-- Spec §4.5 tier 1: left and straight only. -/
def tier1 : TurnPolicy := ⟨true, true, false, false⟩

/-- Spec §4.5 tier 2: adds U-turns. -/
def tier2 : TurnPolicy := ⟨true, true, false, true⟩

/-- Spec §4.5 tier 3: all turn types. -/
def tier3 : TurnPolicy := ⟨true, true, true, true⟩

/-- The spec's RouteResolver (§4.5): try the tiers in order, return the
first success together with the number of the tier that produced it. -/
noncomputable def specResolve (fuel startId endId : ℕ)
    (graph : ℕ → Option (List ℕ)) (nodes : ℕ → Option Coord) :
    Option (ℕ × List ℕ × ℝ) :=
  match specSearch fuel tier1 startId endId graph nodes with
  | .found p c => some (1, p, c)
  | _ =>
    match specSearch fuel tier2 startId endId graph nodes with
    | .found p c => some (2, p, c)
    | _ =>
      match specSearch fuel tier3 startId endId graph nodes with
      | .found p c => some (3, p, c)
      | _ => none

-- ### A concrete map whose only connection requires a right turn
-- (1 → 2 → 3 turns right by 90 degrees at node 2)

def graphC1 : ℕ → Option (List ℕ) := fun n =>
  if n = 1 then some [2] else if n = 2 then some [3]
  else if n = 3 then some [] else none

noncomputable def nodesC1 : ℕ → Option Coord := fun n =>
  if n = 1 then some ⟨0, 0⟩ else if n = 2 then some ⟨1, 0⟩
  else if n = 3 then some ⟨1, 1⟩ else none

noncomputable def c1st1 : LoopState :=
  ⟨[((2, some 1), 1.05 * oneDegree + haversineDistance ⟨1, 0⟩ ⟨1, 1⟩)],
    [((1, none), 0), ((2, some 1), 1.05 * oneDegree)],
    [((2, some 1), (1, none))]⟩

-- Spec-side runs on the same map

noncomputable def c1t1st1 : LoopState :=
  ⟨[((2, some 1), 1.1 * oneDegree + haversineDistance ⟨1, 0⟩ ⟨1, 1⟩)],
    [((1, none), 0), ((2, some 1), 1.1 * oneDegree)],
    [((2, some 1), (1, none))]⟩

noncomputable def c1t3st2 : LoopState :=
  ⟨[((3, some 2), 1.1 * oneDegree + haversineDistance ⟨1, 0⟩ ⟨1, 1⟩ * 5)],
    [((1, none), 0), ((2, some 1), 1.1 * oneDegree),
      ((3, some 2), 1.1 * oneDegree + haversineDistance ⟨1, 0⟩ ⟨1, 1⟩ * 5)],
    [((2, some 1), (1, none)), ((3, some 2), (2, some 1))]⟩

-- ### A straight two-segment chain along the equator (1 → 2 → 3)

def graphC4 : ℕ → Option (List ℕ) := fun n =>
  if n = 1 then some [2] else if n = 2 then some [3]
  else if n = 3 then some [] else none

noncomputable def nodesC4 : ℕ → Option Coord := fun n =>
  if n = 1 then some ⟨0, 0⟩ else if n = 2 then some ⟨0, 1⟩
  else if n = 3 then some ⟨0, 2⟩ else none

noncomputable def c4st1 : LoopState :=
  ⟨[((2, some 1), 1.05 * oneDegree + oneDegree)],
    [((1, none), 0), ((2, some 1), 1.05 * oneDegree)],
    [((2, some 1), (1, none))]⟩

noncomputable def c4st2 : LoopState :=
  ⟨[((3, some 2), 1.05 * oneDegree + 1.05 * oneDegree)],
    [((1, none), 0), ((2, some 1), 1.05 * oneDegree),
      ((3, some 2), 1.05 * oneDegree + 1.05 * oneDegree)],
    [((2, some 1), (1, none)), ((3, some 2), (2, some 1))]⟩

/-- Sum of the unpenalized haversine distances along a node path. -/
noncomputable def pathDistance (nodes : ℕ → Option Coord) : List ℕ → ℝ
  | u :: v :: rest =>
    haversineDistance (coordD nodes v) (coordD nodes u) +
      pathDistance nodes (v :: rest)
  | _ => 0

-- ### A cycle of three coincident nodes (1 → 2 → 3 → 1, all at the origin)
-- ### with an unreachable goal node 4

def graphC6 : ℕ → Option (List ℕ) := fun n =>
  if n = 1 then some [2] else if n = 2 then some [3]
  else if n = 3 then some [1] else if n = 4 then some [] else none

noncomputable def nodesC6 : ℕ → Option Coord := fun n =>
  if n = 1 then some ⟨0, 0⟩ else if n = 2 then some ⟨0, 0⟩
  else if n = 3 then some ⟨0, 0⟩ else if n = 4 then some ⟨0, 1⟩ else none

noncomputable def c6s1 : LoopState :=
  ⟨[((2, some 1), oneDegree)],
    [((1, none), 0), ((2, some 1), 0)],
    [((2, some 1), (1, none))]⟩

noncomputable def c6s2 : LoopState :=
  ⟨[((3, some 2), oneDegree)],
    [((1, none), 0), ((2, some 1), 0), ((3, some 2), 0)],
    [((2, some 1), (1, none)), ((3, some 2), (2, some 1))]⟩

noncomputable def c6s3 : LoopState :=
  ⟨[((1, some 3), oneDegree)],
    [((1, none), 0), ((2, some 1), 0), ((3, some 2), 0), ((1, some 3), 0)],
    [((2, some 1), (1, none)), ((3, some 2), (2, some 1)),
      ((1, some 3), (3, some 2))]⟩

noncomputable def c6s4 : LoopState :=
  ⟨[((2, some 1), oneDegree)],
    [((1, none), 0), ((2, some 1), 0), ((3, some 2), 0), ((1, some 3), 0)],
    [((2, some 1), (1, some 3)), ((3, some 2), (2, some 1)),
      ((1, some 3), (3, some 2))]⟩

noncomputable def c6s5 : LoopState :=
  ⟨[((3, some 2), oneDegree)], c6s4.gScore, c6s4.cameFrom⟩

noncomputable def c6s6 : LoopState :=
  ⟨[((1, some 3), oneDegree)], c6s4.gScore, c6s4.cameFrom⟩

-- ### A map where a zero-length path and a longer left-turn loop reach the
-- ### same search state (3, from 2): nodes 1,2,3,6 coincide at the origin,
-- ### 4 and 5 sit away from it; goal 6 is unreachable

def graphC7 : ℕ → Option (List ℕ) := fun n =>
  if n = 1 then some [2, 4] else if n = 2 then some [3]
  else if n = 3 then some [] else if n = 4 then some [5]
  else if n = 5 then some [2] else if n = 6 then some [] else none

noncomputable def nodesC7 : ℕ → Option Coord := fun n =>
  if n = 1 then some ⟨0, 0⟩ else if n = 2 then some ⟨0, 0⟩
  else if n = 3 then some ⟨0, 0⟩ else if n = 4 then some ⟨1, 0⟩
  else if n = 5 then some ⟨1, -1⟩ else if n = 6 then some ⟨0, 0⟩ else none

noncomputable def c7s1 : LoopState :=
  ⟨[((2, some 1), 0), ((4, some 1), 1.05 * oneDegree + oneDegree)],
    [((1, none), 0), ((2, some 1), 0), ((4, some 1), 1.05 * oneDegree)],
    [((2, some 1), (1, none)), ((4, some 1), (1, none))]⟩

noncomputable def c7s2 : LoopState :=
  ⟨[((3, some 2), 0), ((4, some 1), 1.05 * oneDegree + oneDegree)],
    [((1, none), 0), ((2, some 1), 0), ((4, some 1), 1.05 * oneDegree),
      ((3, some 2), 0)],
    [((2, some 1), (1, none)), ((4, some 1), (1, none)),
      ((3, some 2), (2, some 1))]⟩

noncomputable def c7s4 : LoopState :=
  ⟨[((5, some 4), 1.05 * oneDegree + haversineDistance ⟨1, 0⟩ ⟨1, -1⟩ +
      haversineDistance ⟨1, -1⟩ ⟨0, 0⟩)],
    [((1, none), 0), ((2, some 1), 0), ((4, some 1), 1.05 * oneDegree),
      ((3, some 2), 0),
      ((5, some 4), 1.05 * oneDegree + haversineDistance ⟨1, 0⟩ ⟨1, -1⟩)],
    [((2, some 1), (1, none)), ((4, some 1), (1, none)),
      ((3, some 2), (2, some 1)), ((5, some 4), (4, some 1))]⟩

noncomputable def c7s5 : LoopState :=
  ⟨[((2, some 5), 1.05 * oneDegree + haversineDistance ⟨1, 0⟩ ⟨1, -1⟩ +
      haversineDistance ⟨1, -1⟩ ⟨0, 0⟩)],
    [((1, none), 0), ((2, some 1), 0), ((4, some 1), 1.05 * oneDegree),
      ((3, some 2), 0),
      ((5, some 4), 1.05 * oneDegree + haversineDistance ⟨1, 0⟩ ⟨1, -1⟩),
      ((2, some 5), 1.05 * oneDegree + haversineDistance ⟨1, 0⟩ ⟨1, -1⟩ +
        haversineDistance ⟨1, -1⟩ ⟨0, 0⟩)],
    [((2, some 1), (1, none)), ((4, some 1), (1, none)),
      ((3, some 2), (2, some 1)), ((5, some 4), (4, some 1)),
      ((2, some 5), (5, some 4))]⟩

noncomputable def c7s6 : LoopState :=
  ⟨[((3, some 2), 1.05 * oneDegree + haversineDistance ⟨1, 0⟩ ⟨1, -1⟩ +
      haversineDistance ⟨1, -1⟩ ⟨0, 0⟩)],
    [((1, none), 0), ((2, some 1), 0), ((4, some 1), 1.05 * oneDegree),
      ((3, some 2), 1.05 * oneDegree + haversineDistance ⟨1, 0⟩ ⟨1, -1⟩ +
        haversineDistance ⟨1, -1⟩ ⟨0, 0⟩),
      ((5, some 4), 1.05 * oneDegree + haversineDistance ⟨1, 0⟩ ⟨1, -1⟩),
      ((2, some 5), 1.05 * oneDegree + haversineDistance ⟨1, 0⟩ ⟨1, -1⟩ +
        haversineDistance ⟨1, -1⟩ ⟨0, 0⟩)],
    [((2, some 1), (1, none)), ((4, some 1), (1, none)),
      ((3, some 2), (2, some 5)), ((5, some 4), (4, some 1)),
      ((2, some 5), (5, some 4))]⟩

-- ### Graph construction from raw OSM elements (`buildGraph`, lines 133-168)

/-- A raw OSM element: a node with coordinates, or a way with its ordered
node list and its `oneway === 'yes'` flag. -/
inductive OsmElement where
  | node (id : ℕ) (lat lon : ℝ)
  | way (nodeIds : List ℕ) (oneway : Bool)

/-- The consecutive pairs `(nodes[i], nodes[i+1])` of a way. -/
def waySegments : List ℕ → List (ℕ × ℕ)
  | a :: b :: rest => (a, b) :: waySegments (b :: rest)
  | _ => []

/-- First pass of `buildGraph`: register every node's coordinates
(later records overwrite earlier ones, as JavaScript assignment does). -/
noncomputable def nodesOf (els : List OsmElement) : List (ℕ × Coord) :=
  els.foldl (fun acc el =>
    match el with
    | .node i la lo => alUpdate i ⟨la, lo⟩ acc
    | .way _ _ => acc) []

/-- The adjacency object right after the first pass: an empty entry for
exactly the registered node ids. -/
noncomputable def graphInit (els : List OsmElement) : ℕ → Option (List ℕ) :=
  fun n => if (alFind (nodesOf els) n).isSome then some [] else none

/-- `graph[a].push(b)`. -/
def pushEdge (a b : ℕ) (g : ℕ → Option (List ℕ)) : ℕ → Option (List ℕ) :=
  fun k => if k = a then (g a).map (fun l => l ++ [b]) else g k

/-- Lines 148-163 for one consecutive pair: add `A → B` when `graph[A]`
exists and `nodes[B]` exists; add `B → A` additionally unless the way is
one-way. -/
def addSegment (nodesL : List (ℕ × Coord)) (oneway : Bool)
    (g : ℕ → Option (List ℕ)) (p : ℕ × ℕ) : ℕ → Option (List ℕ) :=
  let g1 := if (g p.1).isSome ∧ (alFind nodesL p.2).isSome then
    pushEdge p.1 p.2 g else g
  if oneway = false ∧ (g1 p.2).isSome ∧ (alFind nodesL p.1).isSome then
    pushEdge p.2 p.1 g1 else g1

/-- `buildGraph` from `server.js`: the two passes. -/
noncomputable def buildGraph (els : List OsmElement) :
    (ℕ → Option (List ℕ)) × List (ℕ × Coord) :=
  (els.foldl (fun g el =>
    match el with
    | .way ids ow => (waySegments ids).foldl
        (fun g' p => addSegment (nodesOf els) ow g' p) g
    | .node _ _ _ => g) (graphInit els), nodesOf els)

/-- Every consecutive pair of every way, with its way's one-way flag. -/
def allSegments (els : List OsmElement) : List (ℕ × ℕ × Bool) :=
  els.flatMap (fun el =>
    match el with
    | .way ids ow => (waySegments ids).map (fun p => (p.1, p.2, ow))
    | .node _ _ _ => [])

/-- One segment step, uncurried over `allSegments` entries. -/
noncomputable def addSegT (nodesL : List (ℕ × Coord))
    (g : ℕ → Option (List ℕ)) (s : ℕ × ℕ × Bool) : ℕ → Option (List ℕ) :=
  addSegment nodesL s.2.2 g (s.1, s.2.1)

/-- Concrete elements: two registered nodes and a one-way way from 1 to 2. -/
noncomputable def elsC8 : List OsmElement :=
  [OsmElement.node 1 0 0, OsmElement.node 2 0 1, OsmElement.way [1, 2] true]

-- ### The `/route` request handler (lines 48-95)

/-- A coordinate object of the JSON request body; each numeric field may be
absent. -/
structure JsCoordIn where
  lat : Option ℝ
  lng : Option ℝ

/-- The request body: `start` and `end` may each be absent. -/
structure RouteBody where
  start : Option JsCoordIn
  finish : Option JsCoordIn

/-- `!field` for an optional numeric field: falsy iff absent or exactly 0. -/
def falsyNum (o : Option ℝ) : Prop := o = none ∨ o = some 0

/-- `findClosestNode` (lines 176-189): linear scan keeping the strictly
closest candidate; `none` on an empty node map. -/
noncomputable def findClosestNode (point : Coord)
    (nodesL : List (ℕ × Coord)) : Option ℕ :=
  (nodesL.foldl (fun acc kv =>
    match acc with
    | none => some (kv.1, haversineDistance point kv.2)
    | some (bestId, bestD) =>
      if haversineDistance point kv.2 < bestD then
        some (kv.1, haversineDistance point kv.2)
      else some (bestId, bestD)) none).map Prod.fst

/-- The distinct responses of the `/route` handler. -/
inductive RouteResponse where
  | badRequest
  | noMapData
  | noNodeMapping
  | noPathFound
  | ok (path : List (ℝ × ℝ)) (distance : ℝ)
  | pending

open Classical in
/-- The `/route` handler: validation by truthiness, then map data check,
graph construction, endpoint snapping, the single search, and the response
assembly bracketing the path with the request coordinates. -/
noncomputable def handleRoute (fuel : ℕ) (body : RouteBody)
    (osm : List OsmElement) : RouteResponse :=
  match body.start, body.finish with
  | some s, some f =>
    if falsyNum s.lat ∨ falsyNum s.lng ∨ falsyNum f.lat ∨ falsyNum f.lng then
      .badRequest
    else if osm = [] then .noMapData
    else
      let bg := buildGraph osm
      match findClosestNode ⟨s.lat.getD 0, s.lng.getD 0⟩ bg.2,
          findClosestNode ⟨f.lat.getD 0, f.lng.getD 0⟩ bg.2 with
      | some sid, some eid =>
        match findPath fuel sid eid bg.1 (fun n => alFind bg.2 n) with
        | .noPath => .noPathFound
        | .outOfFuel => .pending
        | .found p d =>
          .ok ((s.lat.getD 0, s.lng.getD 0) ::
            p.map (fun id => (((alFind bg.2 id).getD ⟨0, 0⟩).lat,
              ((alFind bg.2 id).getD ⟨0, 0⟩).lon)) ++
            [(f.lat.getD 0, f.lng.getD 0)]) d
      | _, _ => .noNodeMapping
  | _, _ => .badRequest

-- ### Concrete evaluations of the geographic primitives

theorem atan2_zero_zero : atan2 0 0 = 0 := by
  simp [atan2, Complex.arg_zero]

theorem atan2_zero_one : atan2 0 1 = 0 := by
  simp [atan2, Complex.arg_one]

theorem atan2_one_zero : atan2 1 0 = π / 2 := by
  simp [atan2, Complex.arg_I]

theorem atan2_negone_zero : atan2 (-1) 0 = -(π / 2) := by
  have : ((0 : ℂ)) + ((-1 : ℝ) : ℂ) * Complex.I = -Complex.I := by
    push_cast
    ring
  simp only [atan2]
  rw [show ((0 : ℝ) : ℂ) = (0 : ℂ) by norm_num, this, Complex.arg_neg_I]

theorem atan2_zero_negone : atan2 0 (-1) = π := by
  have : ((-1 : ℝ) : ℂ) + ((0 : ℝ) : ℂ) * Complex.I = -1 := by
    push_cast
    ring
  simp only [atan2]
  rw [this, Complex.arg_neg_one]

theorem atan2_one_negone : atan2 1 (-1) = 3 * π / 4 := by
  have hmem : 3 * π / 4 ∈ Set.Ioc (-π) π := by
    constructor
    · nlinarith [pi_pos]
    · nlinarith [pi_pos]
  have hcos : Real.cos (3 * π / 4) = -(Real.sqrt 2 / 2) := by
    have h34 : (3 : ℝ) * π / 4 = π - π / 4 := by ring
    rw [h34, Real.cos_pi_sub, Real.cos_pi_div_four]
  have hsin : Real.sin (3 * π / 4) = Real.sqrt 2 / 2 := by
    have h34 : (3 : ℝ) * π / 4 = π - π / 4 := by ring
    rw [h34, Real.sin_pi_sub, Real.sin_pi_div_four]
  have hsqrt2 : Real.sqrt 2 * Real.sqrt 2 = 2 :=
    Real.mul_self_sqrt (by norm_num)
  have h1 : Real.sqrt 2 * -(Real.sqrt 2 / 2) = -1 := by nlinarith [hsqrt2]
  have h2 : Real.sqrt 2 * (Real.sqrt 2 / 2) = 1 := by nlinarith [hsqrt2]
  have hz : ((-1 : ℝ) : ℂ) + ((1 : ℝ) : ℂ) * Complex.I =
      ((Real.sqrt 2 : ℝ) : ℂ) * (Complex.cos ((3 * π / 4 : ℝ) : ℂ) +
        Complex.sin ((3 * π / 4 : ℝ) : ℂ) * Complex.I) := by
    rw [← Complex.ofReal_cos, ← Complex.ofReal_sin, hcos, hsin]
    rw [show ((Real.sqrt 2 : ℝ) : ℂ) * (((-(Real.sqrt 2 / 2) : ℝ) : ℂ) +
        ((Real.sqrt 2 / 2 : ℝ) : ℂ) * Complex.I) =
        ((Real.sqrt 2 * -(Real.sqrt 2 / 2) : ℝ) : ℂ) +
        ((Real.sqrt 2 * (Real.sqrt 2 / 2) : ℝ) : ℂ) * Complex.I by push_cast; ring]
    rw [h1, h2]
  simp only [atan2]
  rw [hz, Complex.arg_mul_cos_add_sin_mul_I (by positivity) hmem]

/-- Reduce a `calculateTurnAngle` computation to rational arithmetic once the
two pseudo-bearings are known as rational multiples of `π`. -/
theorem turnAngle_val (p1 p2 p3 : Coord) (b1 b2 r : ℝ)
    (h1 : atan2 (p2.lon - p1.lon) (p2.lat - p1.lat) = b1 * π)
    (h2 : atan2 (p3.lon - p2.lon) (p3.lat - p2.lat) = b2 * π)
    (hr : (b2 - b1) * 180 = r) :
    calculateTurnAngle p1 p2 p3 =
      (if (if r > 180 then r - 360 else r) < -180 then
        (if r > 180 then r - 360 else r) + 360
      else (if r > 180 then r - 360 else r)) := by
  have hπ : (π : ℝ) ≠ 0 := pi_ne_zero
  simp only [calculateTurnAngle, h1, h2]
  rw [show (b2 * π - b1 * π) * (180 / π) = (b2 - b1) * 180 by field_simp; ring, hr]

theorem calcAngle_o_o_o : calculateTurnAngle ⟨0, 0⟩ ⟨0, 0⟩ ⟨0, 0⟩ = 0 := by
  rw [turnAngle_val ⟨0, 0⟩ ⟨0, 0⟩ ⟨0, 0⟩ 0 0 0
    (by norm_num [atan2_zero_zero]) (by norm_num [atan2_zero_zero]) (by norm_num)]
  norm_num

theorem calcAngle_left90 : calculateTurnAngle ⟨0, 0⟩ ⟨1, 0⟩ ⟨1, -1⟩ = -90 := by
  rw [turnAngle_val ⟨0, 0⟩ ⟨1, 0⟩ ⟨1, -1⟩ 0 (-(1/2)) (-90)
    (by norm_num [atan2_zero_one]) (by norm_num [atan2_negone_zero]; ring)
    (by norm_num)]
  norm_num

theorem calcAngle_left135a : calculateTurnAngle ⟨1, 0⟩ ⟨1, -1⟩ ⟨0, 0⟩ = -135 := by
  rw [turnAngle_val ⟨1, 0⟩ ⟨1, -1⟩ ⟨0, 0⟩ (-(1/2)) (3/4) 225
    (by norm_num [atan2_negone_zero]; ring)
    (by norm_num [atan2_one_negone]; ring) (by norm_num)]
  norm_num

theorem calcAngle_left135b : calculateTurnAngle ⟨1, -1⟩ ⟨0, 0⟩ ⟨0, 0⟩ = -135 := by
  rw [turnAngle_val ⟨1, -1⟩ ⟨0, 0⟩ ⟨0, 0⟩ (3/4) 0 (-135)
    (by norm_num [atan2_one_negone]; ring)
    (by norm_num [atan2_zero_zero]) (by norm_num)]
  norm_num

theorem calcAngle_straight_north : calculateTurnAngle ⟨0, 0⟩ ⟨1, 0⟩ ⟨2, 0⟩ = 0 := by
  rw [turnAngle_val ⟨0, 0⟩ ⟨1, 0⟩ ⟨2, 0⟩ 0 0 0
    (by norm_num [atan2_zero_one]) (by norm_num [atan2_zero_one]) (by norm_num)]
  norm_num

theorem calcAngle_straight_east : calculateTurnAngle ⟨0, 0⟩ ⟨0, 1⟩ ⟨0, 2⟩ = 0 := by
  rw [turnAngle_val ⟨0, 0⟩ ⟨0, 1⟩ ⟨0, 2⟩ (1/2) (1/2) 0
    (by norm_num [atan2_one_zero]; ring) (by norm_num [atan2_one_zero]; ring)
    (by norm_num)]
  norm_num

theorem calcAngle_right90 : calculateTurnAngle ⟨0, 0⟩ ⟨1, 0⟩ ⟨1, 1⟩ = 90 := by
  rw [turnAngle_val ⟨0, 0⟩ ⟨1, 0⟩ ⟨1, 1⟩ 0 (1/2) 90
    (by norm_num [atan2_zero_one]) (by norm_num [atan2_one_zero]; ring)
    (by norm_num)]
  norm_num

theorem calcAngle_reversal : calculateTurnAngle ⟨1, 0⟩ ⟨0, 0⟩ ⟨1, 0⟩ = -180 := by
  rw [turnAngle_val ⟨1, 0⟩ ⟨0, 0⟩ ⟨1, 0⟩ 1 0 (-180)
    (by norm_num [atan2_zero_negone]) (by norm_num [atan2_zero_one])
    (by norm_num)]
  norm_num

-- ### Classification evaluations

theorem classify_zero : classifyTurn 0 = some Turn.straight := by
  simp only [classifyTurn]
  norm_num

theorem classify_neg90 : classifyTurn (-90) = some Turn.left := by
  simp only [classifyTurn]
  norm_num

theorem classify_neg135 : classifyTurn (-135) = some Turn.left := by
  simp only [classifyTurn]
  norm_num

theorem classify_pos90 : classifyTurn 90 = none := by
  simp only [classifyTurn]
  norm_num

-- ### Haversine distance lemmas

theorem atan2_sin_cos (t : ℝ) (hl : -π < t) (hr : t ≤ π) :
    atan2 (Real.sin t) (Real.cos t) = t := by
  simp only [atan2]
  rw [Complex.ofReal_cos, Complex.ofReal_sin]
  exact Complex.arg_cos_add_sin_mul_I ⟨hl, hr⟩

theorem sqrt_one_sub_sin_sq (t : ℝ) (h : 0 ≤ Real.cos t) :
    Real.sqrt (1 - Real.sin t * Real.sin t) = Real.cos t := by
  rw [show 1 - Real.sin t * Real.sin t = Real.cos t * Real.cos t by
    nlinarith [Real.sin_sq_add_cos_sq t]]
  exact Real.sqrt_mul_self h

/-- Evaluating the haversine distance when the `a` term equals
`sin t * sin t` for some `t ∈ [0, π/2]`. -/
theorem hav_formula (p1 p2 : Coord) (t : ℝ) (h0 : 0 ≤ t) (h1 : t ≤ π / 2)
    (ha : Real.sin ((p2.lat - p1.lat) * π / 180 / 2) *
        Real.sin ((p2.lat - p1.lat) * π / 180 / 2) +
      Real.cos (p1.lat * π / 180) * Real.cos (p2.lat * π / 180) *
        Real.sin ((p2.lon - p1.lon) * π / 180 / 2) *
          Real.sin ((p2.lon - p1.lon) * π / 180 / 2) =
      Real.sin t * Real.sin t) :
    haversineDistance p1 p2 = 6371000 * (2 * t) := by
  have hpi := pi_pos
  simp only [haversineDistance]
  rw [ha]
  rw [Real.sqrt_mul_self (Real.sin_nonneg_of_nonneg_of_le_pi h0 (by linarith))]
  rw [sqrt_one_sub_sin_sq t (Real.cos_nonneg_of_mem_Icc ⟨by linarith, h1⟩)]
  rw [atan2_sin_cos t (by linarith) (by linarith)]

theorem hav_self (p : Coord) : haversineDistance p p = 0 := by
  rw [hav_formula p p 0 le_rfl (by positivity) (by norm_num)]
  norm_num

theorem atan2_nonneg (y x : ℝ) (hy : 0 ≤ y) : 0 ≤ atan2 y x := by
  simp only [atan2]
  refine Complex.arg_nonneg_iff.2 ?_
  simp [hy]

theorem hav_nonneg (p q : Coord) : 0 ≤ haversineDistance p q := by
  simp only [haversineDistance]
  have h := atan2_nonneg (Real.sqrt (Real.sin ((q.lat - p.lat) * π / 180 / 2) *
      Real.sin ((q.lat - p.lat) * π / 180 / 2) +
    Real.cos (p.lat * π / 180) * Real.cos (q.lat * π / 180) *
      Real.sin ((q.lon - p.lon) * π / 180 / 2) *
      Real.sin ((q.lon - p.lon) * π / 180 / 2)))
    (Real.sqrt (1 - (Real.sin ((q.lat - p.lat) * π / 180 / 2) *
      Real.sin ((q.lat - p.lat) * π / 180 / 2) +
    Real.cos (p.lat * π / 180) * Real.cos (q.lat * π / 180) *
      Real.sin ((q.lon - p.lon) * π / 180 / 2) *
      Real.sin ((q.lon - p.lon) * π / 180 / 2))))
    (Real.sqrt_nonneg _)
  nlinarith [h]

theorem oneDegree_pos : 0 < oneDegree := by
  have := pi_pos
  simp only [oneDegree]
  positivity

theorem hav_lat01 : haversineDistance ⟨0, 0⟩ ⟨1, 0⟩ = oneDegree := by
  rw [hav_formula ⟨0, 0⟩ ⟨1, 0⟩ (π / 360) (by positivity) (by nlinarith [pi_pos])
    (by norm_num; rw [show (π / 180 / 2 : ℝ) = π / 360 by ring])]
  simp only [oneDegree]
  ring

theorem hav_east01 : haversineDistance ⟨0, 0⟩ ⟨0, 1⟩ = oneDegree := by
  rw [hav_formula ⟨0, 0⟩ ⟨0, 1⟩ (π / 360) (by positivity) (by nlinarith [pi_pos])
    (by norm_num; rw [show (π / 180 / 2 : ℝ) = π / 360 by ring])]
  simp only [oneDegree]
  ring

theorem hav_east12 : haversineDistance ⟨0, 1⟩ ⟨0, 2⟩ = oneDegree := by
  rw [hav_formula ⟨0, 1⟩ ⟨0, 2⟩ (π / 360) (by positivity) (by nlinarith [pi_pos])
    (by norm_num; rw [show (π / 180 / 2 : ℝ) = π / 360 by ring])]
  simp only [oneDegree]
  ring

theorem hav_east21 : haversineDistance ⟨0, 2⟩ ⟨0, 1⟩ = oneDegree := by
  rw [hav_formula ⟨0, 2⟩ ⟨0, 1⟩ (π / 360) (by positivity) (by nlinarith [pi_pos])
    (by norm_num; rw [show (-π / 180 / 2 : ℝ) = -(π / 360) by ring,
      Real.sin_neg, neg_mul_neg])]
  simp only [oneDegree]
  ring

theorem hav_east10 : haversineDistance ⟨0, 1⟩ ⟨0, 0⟩ = oneDegree := by
  rw [hav_formula ⟨0, 1⟩ ⟨0, 0⟩ (π / 360) (by positivity) (by nlinarith [pi_pos])
    (by norm_num; rw [show (-π / 180 / 2 : ℝ) = -(π / 360) by ring,
      Real.sin_neg, neg_mul_neg])]
  simp only [oneDegree]
  ring

-- ### Generic unfolding and classification facts for the search loop

theorem searchLoop_unfold (f e : ℕ) (g : ℕ → Option (List ℕ))
    (n : ℕ → Option Coord) (st : LoopState) :
    searchLoop f e g n st =
      if f = 0 then .outOfFuel
      else
        match stepOnce e g n st with
        | .found c p gs cf => .found c p gs cf
        | .exhausted => .exhausted
        | .next st' => searchLoop (f - 1) e g n st' := by
  cases f with
  | zero => rfl
  | succ f => simp only [searchLoop, Nat.succ_ne_zero, if_false, Nat.add_sub_cancel]

theorem turn_left_ne_straight : (Turn.left = Turn.straight) = False := by
  simp

theorem turn_straight_eq_straight : (Turn.straight = Turn.straight) = True := by
  simp

theorem isLeftPair_iff (t : Turn) (nb : ℕ) :
    isLeftPair (t, nb) = true ↔ t = Turn.left := by
  cases t <;> simp [isLeftPair]

theorem isStraightPair_iff (t : Turn) (nb : ℕ) :
    isStraightPair (t, nb) = true ↔ t = Turn.straight := by
  cases t <;> simp [isStraightPair]

theorem c2_avail1 : availableTurns nodesC2 none 1 [2] = [(Turn.straight, 2)] := by
  simp [availableTurns, List.filterMap_cons, List.filterMap_nil]

theorem c2_tp1 : turnsToProcess [(Turn.straight, 2)] = [(Turn.straight, 2)] := by
  decide

theorem c2_step1 : stepOnce 4 graphC2 nodesC2 (initLoopState 1 4 nodesC2) =
    .next c2st1 := by
  simp only [stepOnce, initLoopState, processState, graphC2, Option.getD_some]
  norm_num [c2_avail1, c2_tp1]
  simp only [List.foldl_cons, List.foldl_nil, relaxTurn, alFind, alUpdate, pqInsert,
    coordD, nodesC2, c2st1, Option.getD_some]
  norm_num [hav_lat01, mul_comm]

theorem c2_avail2 : availableTurns nodesC2 (some 1) 2 [3, 4] =
    [(Turn.left, 3), (Turn.straight, 4)] := by
  simp [availableTurns, coordD, nodesC2, calcAngle_left90, calcAngle_straight_north,
    classify_neg90, classify_zero]

theorem c2_tp2 : turnsToProcess [(Turn.left, 3), (Turn.straight, 4)] =
    [(Turn.left, 3)] := by
  decide

theorem c2_step2 : stepOnce 4 graphC2 nodesC2 c2st1 = .next c2st2 := by
  simp only [stepOnce, c2st1, processState, graphC2, Option.getD_some]
  norm_num [c2_avail2, c2_tp2]
  simp only [List.foldl_cons, List.foldl_nil, relaxTurn, alFind, alUpdate, pqInsert,
    coordD, nodesC2, c2st2, Option.getD_some]
  norm_num [mul_comm, turn_left_ne_straight]

theorem c2_avail3 : availableTurns nodesC2 (some 2) 3 [] = [] := by
  simp [availableTurns]

theorem c2_step3 : stepOnce 4 graphC2 nodesC2 c2st2 =
    .next ⟨[], c2st2.gScore, c2st2.cameFrom⟩ := by
  simp only [stepOnce, c2st2, processState, graphC2, Option.getD_some]
  norm_num [c2_avail3]
  simp only [turnsToProcess, List.filter_nil, List.foldl_nil, if_pos]

theorem c2_step4 : stepOnce 4 graphC2 nodesC2 ⟨[], c2st2.gScore, c2st2.cameFrom⟩ =
    .exhausted := by
  simp only [stepOnce]

theorem c2_run : findPath 10 1 4 graphC2 nodesC2 = .noPath := by
  simp only [findPath, searchLoop_unfold, c2_step1, c2_step2, c2_step3, c2_step4]
  norm_num

/-- C2: the claim fails on the code.  At the state `(2, some 1)` of the map
`graphC2`/`nodesC2`, neighbor 3 classifies Left and neighbor 4 classifies
Straight; although Straight is allowed, the left-preference filter drops
neighbor 4 from the processed turns, and the search consequently reports
no path even though the straight continuation `1 → 2 → 4` reaches the
goal 4. -/
theorem claim_C2_counterexample :
    availableTurns nodesC2 (some 1) 2 [3, 4] =
      [(Turn.left, 3), (Turn.straight, 4)] ∧
    turnsToProcess (availableTurns nodesC2 (some 1) 2 [3, 4]) =
      [(Turn.left, 3)] ∧
    (Turn.straight, 4) ∉ turnsToProcess (availableTurns nodesC2 (some 1) 2 [3, 4]) ∧
    findPath 10 1 4 graphC2 nodesC2 = .noPath := by
  refine ⟨c2_avail2, ?_, ?_, c2_run⟩
  · rw [c2_avail2, c2_tp2]
  · rw [c2_avail2, c2_tp2]
    decide

/-- C2 (amended): a neighbor appearing in `availableTurns` is processed for
relaxation iff it classifies Left, or it classifies Straight and no
neighbor of the popped state classifies Left — left turns preempt straight
ones instead of every allowed neighbor being relaxed. -/
theorem claim_C2_theorem (ts : List (Turn × ℕ)) (t : Turn) (nb : ℕ) :
    (t, nb) ∈ turnsToProcess ts ↔
      ((t, nb) ∈ ts ∧ (t = Turn.left ∨
        (t = Turn.straight ∧ ∀ nb', (Turn.left, nb') ∉ ts))) := by
  simp only [turnsToProcess]
  by_cases h : ts.filter isLeftPair = []
  · rw [if_pos h]
    rw [List.filter_eq_nil_iff] at h
    constructor
    · intro hm
      rw [List.mem_filter] at hm
      rcases hm with ⟨hmem, hs⟩
      rw [isStraightPair_iff] at hs
      refine ⟨hmem, Or.inr ⟨hs, fun nb' hmem' => ?_⟩⟩
      have := h _ hmem'
      simp [isLeftPair] at this
    · rintro ⟨hmem, hcase⟩
      rw [List.mem_filter]
      rcases hcase with hL | ⟨hS, _⟩
      · exfalso
        have := h _ hmem
        subst hL
        simp [isLeftPair] at this
      · exact ⟨hmem, (isStraightPair_iff t nb).2 hS⟩
  · rw [if_neg h]
    constructor
    · intro hm
      rw [List.mem_filter] at hm
      exact ⟨hm.1, Or.inl ((isLeftPair_iff t nb).1 hm.2)⟩
    · rintro ⟨hmem, hcase⟩
      rcases hcase with hL | ⟨hS, hnoleft⟩
      · exact List.mem_filter.2 ⟨hmem, (isLeftPair_iff t nb).2 hL⟩
      · exfalso
        rcases List.exists_mem_of_ne_nil _ h with ⟨x, hx⟩
        rw [List.mem_filter] at hx
        obtain ⟨x1, x2⟩ := x
        rw [isLeftPair_iff] at hx
        exact hnoleft x2 (hx.2 ▸ hx.1)

theorem specLoop_unfold (f e : ℕ) (policy : TurnPolicy)
    (g : ℕ → Option (List ℕ)) (n : ℕ → Option Coord) (st : LoopState) :
    specLoop f e policy g n st =
      if f = 0 then .outOfFuel
      else
        match specStepOnce e policy g n st with
        | .found c p gs cf => .found c p gs cf
        | .exhausted => .exhausted
        | .next st' => specLoop (f - 1) e policy g n st' := by
  cases f with
  | zero => rfl
  | succ f => simp only [specLoop, Nat.succ_ne_zero, if_false, Nat.add_sub_cancel]

/-- On the very first move (`prev === null`) every neighbor is offered as a
straight turn. -/
theorem availableTurns_none (nodes : ℕ → Option Coord) (cur : ℕ)
    (nbs : List ℕ) :
    availableTurns nodes none cur nbs = nbs.map (fun nb => (Turn.straight, nb)) := by
  simp only [availableTurns]
  rw [show (fun nb => if some nb = (none : Option ℕ) then none
      else some (Turn.straight, nb)) = fun nb => some (Turn.straight, nb) by
    funext nb; simp]
  rw [show (fun nb => some (Turn.straight, nb)) =
      some ∘ (fun nb => ((Turn.straight, nb) : Turn × ℕ)) from rfl]
  rw [List.filterMap_eq_map]

theorem c1_step1 : stepOnce 3 graphC1 nodesC1 (initLoopState 1 3 nodesC1) =
    .next c1st1 := by
  simp only [stepOnce, initLoopState, processState, graphC1, Option.getD_some]
  norm_num [availableTurns_none, c2_tp1]
  simp [List.foldl_cons, List.foldl_nil, relaxTurn, alFind, alUpdate, pqInsert,
    coordD, nodesC1, c1st1, hav_lat01]
  all_goals norm_num [mul_comm]

theorem c1_avail2 : availableTurns nodesC1 (some 1) 2 [3] = [] := by
  simp [availableTurns, coordD, nodesC1, calcAngle_right90, classify_pos90]

theorem c1_step2 : stepOnce 3 graphC1 nodesC1 c1st1 =
    .next ⟨[], c1st1.gScore, c1st1.cameFrom⟩ := by
  simp only [stepOnce, c1st1, processState, graphC1, Option.getD_some]
  norm_num [c1_avail2]
  simp only [turnsToProcess, List.filter_nil, List.foldl_nil, if_pos]

theorem c1_step3 : stepOnce 3 graphC1 nodesC1 ⟨[], c1st1.gScore, c1st1.cameFrom⟩ =
    .exhausted := by
  simp only [stepOnce]

theorem c1_code_run : findPath 10 1 3 graphC1 nodesC1 = .noPath := by
  simp only [findPath, searchLoop_unfold, c1_step1, c1_step2, c1_step3]
  norm_num

theorem c1s_t1_step1 : specStepOnce 3 tier1 graphC1 nodesC1 (initLoopState 1 3 nodesC1) =
    .next c1t1st1 := by
  simp only [specStepOnce, initLoopState, graphC1, Option.getD_some]
  norm_num
  simp [List.foldl_cons, List.foldl_nil, specRelax, specPenalty, alFind, alUpdate,
    pqInsert, coordD, nodesC1, tier1, c1t1st1, hav_lat01]
  all_goals norm_num [mul_comm]

theorem c1s_t1_step2 : specStepOnce 3 tier1 graphC1 nodesC1 c1t1st1 =
    .next ⟨[], c1t1st1.gScore, c1t1st1.cameFrom⟩ := by
  simp only [specStepOnce, c1t1st1, graphC1, Option.getD_some]
  norm_num
  simp [List.foldl_cons, List.foldl_nil, specRelax, specPenalty, coordD, nodesC1,
    tier1, calcAngle_right90]
  all_goals norm_num

theorem c1s_t1_step3 : specStepOnce 3 tier1 graphC1 nodesC1
    ⟨[], c1t1st1.gScore, c1t1st1.cameFrom⟩ = .exhausted := by
  simp only [specStepOnce]

theorem c1s_t1_run : specSearch 10 tier1 1 3 graphC1 nodesC1 = .noPath := by
  simp only [specSearch, specLoop_unfold, c1s_t1_step1, c1s_t1_step2, c1s_t1_step3]
  norm_num

theorem c1s_t2_step1 : specStepOnce 3 tier2 graphC1 nodesC1 (initLoopState 1 3 nodesC1) =
    .next c1t1st1 := by
  simp only [specStepOnce, initLoopState, graphC1, Option.getD_some]
  norm_num
  simp [List.foldl_cons, List.foldl_nil, specRelax, specPenalty, alFind, alUpdate,
    pqInsert, coordD, nodesC1, tier2, c1t1st1, hav_lat01]
  all_goals norm_num [mul_comm]

theorem c1s_t2_step2 : specStepOnce 3 tier2 graphC1 nodesC1 c1t1st1 =
    .next ⟨[], c1t1st1.gScore, c1t1st1.cameFrom⟩ := by
  simp only [specStepOnce, c1t1st1, graphC1, Option.getD_some]
  norm_num
  simp [List.foldl_cons, List.foldl_nil, specRelax, specPenalty, coordD, nodesC1,
    tier2, calcAngle_right90]
  all_goals norm_num

theorem c1s_t2_step3 : specStepOnce 3 tier2 graphC1 nodesC1
    ⟨[], c1t1st1.gScore, c1t1st1.cameFrom⟩ = .exhausted := by
  simp only [specStepOnce]

theorem c1s_t2_run : specSearch 10 tier2 1 3 graphC1 nodesC1 = .noPath := by
  simp only [specSearch, specLoop_unfold, c1s_t2_step1, c1s_t2_step2, c1s_t2_step3]
  norm_num

theorem c1s_t3_step1 : specStepOnce 3 tier3 graphC1 nodesC1 (initLoopState 1 3 nodesC1) =
    .next c1t1st1 := by
  simp only [specStepOnce, initLoopState, graphC1, Option.getD_some]
  norm_num
  simp [List.foldl_cons, List.foldl_nil, specRelax, specPenalty, alFind, alUpdate,
    pqInsert, coordD, nodesC1, tier3, c1t1st1, hav_lat01]
  all_goals norm_num [mul_comm]

theorem c1s_t3_step2 : specStepOnce 3 tier3 graphC1 nodesC1 c1t1st1 =
    .next c1t3st2 := by
  simp only [specStepOnce, c1t1st1, graphC1, Option.getD_some]
  norm_num
  simp [List.foldl_cons, List.foldl_nil, specRelax, specPenalty, alFind, alUpdate,
    pqInsert, coordD, nodesC1, tier3, c1t3st2, calcAngle_right90, hav_self]
  all_goals norm_num [mul_comm]

theorem c1s_t3_step3 : specStepOnce 3 tier3 graphC1 nodesC1 c1t3st2 =
    .found 3 (some 2) c1t3st2.gScore c1t3st2.cameFrom := by
  simp only [specStepOnce, c1t3st2]
  norm_num

theorem specChain_unfold (f : ℕ)
    (cf : List ((ℕ × Option ℕ) × (ℕ × Option ℕ))) (key : ℕ × Option ℕ)
    (acc : List ℕ) :
    specChain f cf key acc =
      if f = 0 then none
      else
        match alFind cf key with
        | none => some (key.1 :: acc)
        | some k' => specChain (f - 1) cf k' (key.1 :: acc) := by
  cases f with
  | zero => rfl
  | succ f => simp only [specChain, Nat.succ_ne_zero, if_false, Nat.add_sub_cancel]

theorem c1s_t3_run : specSearch 10 tier3 1 3 graphC1 nodesC1 =
    .found [1, 2, 3] (1.1 * oneDegree + haversineDistance ⟨1, 0⟩ ⟨1, 1⟩ * 5) := by
  simp only [specSearch, specLoop_unfold, c1s_t3_step1, c1s_t3_step2, c1s_t3_step3]
  norm_num
  simp [c1t3st2, specChain_unfold, alFind]
  all_goals norm_num

/-- C1: the claim fails on the code.  On the map `graphC1`/`nodesC1` the
only route `1 → 2 → 3` needs a right turn, so a resolver that tried the
spec's three tiers would fail tiers 1 and 2 and succeed at tier 3; yet the
handler's single hard-wired search reports no path, because `server.js`
never retries under looser policies. -/
theorem claim_C1_counterexample :
    findPath 10 1 3 graphC1 nodesC1 = .noPath ∧
    specSearch 10 tier1 1 3 graphC1 nodesC1 = .noPath ∧
    specSearch 10 tier2 1 3 graphC1 nodesC1 = .noPath ∧
    specResolve 10 1 3 graphC1 nodesC1 =
      some (3, [1, 2, 3], 1.1 * oneDegree + haversineDistance ⟨1, 0⟩ ⟨1, 1⟩ * 5) := by
  refine ⟨c1_code_run, c1s_t1_run, c1s_t2_run, ?_⟩
  simp only [specResolve, c1s_t1_run, c1s_t2_run, c1s_t3_run]

/-- C1 (amended): the route handler invokes the turn-constrained search
exactly once, with the fixed built-in left/straight policy; it reports the
NoPathFound failure iff that single search exhausts its frontier, and
otherwise returns that search's result — there is no tier loop. -/
theorem claim_C1_theorem (fuel s e : ℕ) (g : ℕ → Option (List ℕ))
    (n : ℕ → Option Coord) :
    (resolveRoute fuel s e g n = .noPathFound ↔ findPath fuel s e g n = .noPath) ∧
    (∀ p d, resolveRoute fuel s e g n = .ok p d ↔
      findPath fuel s e g n = .found p d) := by
  cases h : findPath fuel s e g n <;> simp [resolveRoute, h]

theorem alFind_alUpdate {α β : Type} [DecidableEq α] (k : α) (v : β)
    (l : List (α × β)) : alFind (alUpdate k v l) k = some v := by
  induction l with
  | nil => simp [alFind, alUpdate]
  | cons h r ih =>
    obtain ⟨k', v'⟩ := h
    by_cases hk : k' = k
    · subst hk
      simp [alFind, alUpdate]
    · simp only [alUpdate, if_neg hk, alFind, ih]

/-- C3: the claim fails on the code.  A transition labelled Straight is
charged `distance * 1.05`, not `distance * 1.1`: relaxing the straight
first move `1 → 2` over a one-degree meridian arc records the score
`1.05 * oneDegree`, which differs from the claimed `1.1 * oneDegree`. -/
theorem claim_C3_counterexample :
    alFind (relaxTurn 2 nodesC2 1 none ⟨[], [((1, none), 0)], []⟩
        (Turn.straight, 2)).gScore (2, some 1) = some (1.05 * oneDegree) ∧
    (1.05 : ℝ) * oneDegree ≠ 1.1 * oneDegree := by
  constructor
  · simp [relaxTurn, alFind, alUpdate, coordD, nodesC2, hav_lat01, mul_comm]
  · have := oneDegree_pos
    intro h
    nlinarith

/-- C3 (amended): the first move from the true start is always allowed and
labelled Straight, and every relaxation of a fresh search state records
`previousScore + distance * penalty` with penalty `1.05` for Straight and
`1.0` for Left. -/
theorem claim_C3_theorem :
    (∀ (nodes : ℕ → Option Coord) (cur : ℕ) (nbs : List ℕ),
      availableTurns nodes none cur nbs =
        nbs.map (fun nb => (Turn.straight, nb))) ∧
    (∀ (endId : ℕ) (nodes : ℕ → Option Coord) (current : ℕ) (prev : Option ℕ)
        (st : LoopState) (t : Turn) (nb : ℕ),
      alFind st.gScore (nb, some current) = none →
      alFind (relaxTurn endId nodes current prev st (t, nb)).gScore
          (nb, some current) =
        some (((alFind st.gScore (current, prev)).getD 0) +
          haversineDistance (coordD nodes current) (coordD nodes nb) *
          (if t = Turn.straight then 1.05 else 1))) := by
  refine ⟨availableTurns_none, ?_⟩
  intro endId nodes current prev st t nb h
  simp only [relaxTurn, h]
  simp [alFind_alUpdate]

/-- Witness for the amended C3 on a concrete map and state. -/
theorem claim_C3_witness :
    availableTurns nodesC2 none 1 [2] =
      [2].map (fun nb => (Turn.straight, nb)) ∧
    alFind (relaxTurn 2 nodesC2 1 none ⟨[], [], []⟩
        (Turn.straight, 2)).gScore (2, some 1) =
      some (((alFind ([] : List ((ℕ × Option ℕ) × ℝ)) (1, none)).getD 0) +
        haversineDistance (coordD nodesC2 1) (coordD nodesC2 2) *
        (if Turn.straight = Turn.straight then 1.05 else 1)) :=
  ⟨claim_C3_theorem.1 nodesC2 1 [2],
   claim_C3_theorem.2 2 nodesC2 1 none ⟨[], [], []⟩ Turn.straight 2 rfl⟩

/-- C5: the claim fails on the code.  The angle `-30.0001` lies inside the
inclusive left range `[-150, -30]`, so it classifies as Left rather than
falling outside both ranges and being rejected. -/
theorem claim_C5_counterexample :
    classifyTurn (-(30.0001 : ℝ)) = some Turn.left := by
  simp only [classifyTurn]
  norm_num

/-- C5 (amended): `-30` and `-150` classify as Left, and `-30.0001` also
classifies as Left (it is inside the inclusive range), hence it is not
rejected under a Left/Straight-only policy; the nearest genuinely rejected
angle on that side is below `-150`, e.g. `-150.0001`. -/
theorem claim_C5_theorem :
    classifyTurn (-30) = some Turn.left ∧
    classifyTurn (-150) = some Turn.left ∧
    classifyTurn (-(30.0001 : ℝ)) = some Turn.left ∧
    classifyTurn (-(150.0001 : ℝ)) = none := by
  refine ⟨?_, ?_, ?_, ?_⟩ <;> simp only [classifyTurn]
  · norm_num
  · norm_num
  · norm_num
  · norm_num [abs_of_nonpos]

theorem atan2_mem_Ioc (y x : ℝ) : atan2 y x ∈ Set.Ioc (-π) π :=
  Complex.arg_mem_Ioc _

/-- C9: the claim fails on the code.  The three points `(1,0), (0,0), (1,0)`
have non-degenerate segments, yet the pseudo-bearing difference is exactly
`-180`, which the normalization keeps, so the output is not strictly
greater than `-180`. -/
theorem claim_C9_counterexample :
    (⟨1, 0⟩ : Coord) ≠ ⟨0, 0⟩ ∧ (⟨0, 0⟩ : Coord) ≠ ⟨1, 0⟩ ∧
    calculateTurnAngle ⟨1, 0⟩ ⟨0, 0⟩ ⟨1, 0⟩ = -180 ∧
    ¬(-180 < (-180 : ℝ)) := by
  refine ⟨?_, ?_, calcAngle_reversal, by norm_num⟩ <;>
    (intro h; rw [Coord.mk.injEq] at h; norm_num at h)

/-- C9 (amended): for all inputs the turn angle lies in the closed interval
`[-180, 180]`; the lower endpoint `-180` is attained (see the
counterexample), so the interval cannot be half-open. -/
theorem claim_C9_theorem (p1 p2 p3 : Coord) :
    -180 ≤ calculateTurnAngle p1 p2 p3 ∧ calculateTurnAngle p1 p2 p3 ≤ 180 := by
  have hπ := pi_pos
  obtain ⟨hb1l, hb1r⟩ := atan2_mem_Ioc (p2.lon - p1.lon) (p2.lat - p1.lat)
  obtain ⟨hb2l, hb2r⟩ := atan2_mem_Ioc (p3.lon - p2.lon) (p3.lat - p2.lat)
  have key : ∀ a : ℝ, -360 < a → a < 360 →
      -180 ≤ (if (if a > 180 then a - 360 else a) < -180 then
          (if a > 180 then a - 360 else a) + 360
        else (if a > 180 then a - 360 else a)) ∧
      (if (if a > 180 then a - 360 else a) < -180 then
          (if a > 180 then a - 360 else a) + 360
        else (if a > 180 then a - 360 else a)) ≤ 180 := by
    intro a h1 h2
    split_ifs <;> constructor <;> linarith
  have hpos : (0 : ℝ) < 180 / π := by positivity
  have hlow : (-360 : ℝ) <
      (atan2 (p3.lon - p2.lon) (p3.lat - p2.lat) -
        atan2 (p2.lon - p1.lon) (p2.lat - p1.lat)) * (180 / π) := by
    have hd : -(2 * π) < atan2 (p3.lon - p2.lon) (p3.lat - p2.lat) -
        atan2 (p2.lon - p1.lon) (p2.lat - p1.lat) := by linarith
    calc (-360 : ℝ) = -(2 * π) * (180 / π) := by field_simp; ring
      _ < _ := mul_lt_mul_of_pos_right hd hpos
  have hhigh : (atan2 (p3.lon - p2.lon) (p3.lat - p2.lat) -
      atan2 (p2.lon - p1.lon) (p2.lat - p1.lat)) * (180 / π) < 360 := by
    have hd : atan2 (p3.lon - p2.lon) (p3.lat - p2.lat) -
        atan2 (p2.lon - p1.lon) (p2.lat - p1.lat) < 2 * π := by linarith
    calc _ < 2 * π * (180 / π) := mul_lt_mul_of_pos_right hd hpos
      _ = 360 := by field_simp; ring
  simp only [calculateTurnAngle]
  exact key _ hlow hhigh

theorem reconstructGo_unfold (f : ℕ)
    (cf : List ((ℕ × Option ℕ) × (ℕ × Option ℕ))) (nodes : ℕ → Option Coord)
    (path : List ℕ) (total : ℝ) (key : ℕ × Option ℕ)
    (previousNode : Option Coord) :
    reconstructGo f cf nodes path total key previousNode =
      if f = 0 then none
      else
        match alFind cf key with
        | none => some (path, total)
        | some (c, p) =>
          reconstructGo (f - 1) cf nodes (c :: path)
            (total + haversineDistance (coordD nodes (path.headD 0))
              (previousNode.getD ⟨0, 0⟩))
            (c, p) (p.bind nodes) := by
  cases f with
  | zero => rfl
  | succ f => simp only [reconstructGo, Nat.succ_ne_zero, if_false, Nat.add_sub_cancel]

theorem c4_step1 : stepOnce 3 graphC4 nodesC4 (initLoopState 1 3 nodesC4) =
    .next c4st1 := by
  simp only [stepOnce, initLoopState, processState, graphC4, Option.getD_some]
  norm_num [availableTurns_none, c2_tp1]
  simp [List.foldl_cons, List.foldl_nil, relaxTurn, alFind, alUpdate, pqInsert,
    coordD, nodesC4, c4st1, hav_east01, hav_east12]
  all_goals norm_num [mul_comm]

theorem c4_avail2 : availableTurns nodesC4 (some 1) 2 [3] = [(Turn.straight, 3)] := by
  simp [availableTurns, coordD, nodesC4, calcAngle_straight_east, classify_zero]

theorem c4_tp2 : turnsToProcess [(Turn.straight, 3)] = [(Turn.straight, 3)] := by
  decide

theorem c4_step2 : stepOnce 3 graphC4 nodesC4 c4st1 = .next c4st2 := by
  simp only [stepOnce, c4st1, processState, graphC4, Option.getD_some]
  norm_num [c4_avail2, c4_tp2]
  simp [List.foldl_cons, List.foldl_nil, relaxTurn, alFind, alUpdate, pqInsert,
    coordD, nodesC4, c4st2, hav_east12, hav_self]
  all_goals norm_num [mul_comm]

theorem c4_step3 : stepOnce 3 graphC4 nodesC4 c4st2 =
    .found 3 (some 2) c4st2.gScore c4st2.cameFrom := by
  simp only [stepOnce, c4st2]
  norm_num

theorem c4_recon : reconstructPath
    [((2, some 1), (1, none)), ((3, some 2), (2, some 1))] 3 (some 2) nodesC4 =
    some ([1, 2, 3], 2 * oneDegree) := by
  have f1 : alFind [((2, some 1), (1, none)), ((3, some 2), (2, some 1))]
      ((3 : ℕ), some 2) = some (2, some 1) := by decide
  have f2 : alFind [((2, some 1), (1, none)), ((3, some 2), (2, some 1))]
      ((2 : ℕ), some 1) = some (1, none) := by decide
  have f3 : alFind [((2, some 1), (1, none)), ((3, some 2), (2, some 1))]
      ((1 : ℕ), none) = none := by decide
  simp only [reconstructPath, List.length_cons, List.length_nil]
  norm_num
  simp only [reconstructGo_unfold, f1, f2, f3, Option.some_bind, Option.none_bind,
    coordD, nodesC4, List.headD_cons]
  norm_num [hav_east21, hav_east10]
  ring

/-- C4: the claim fails on the code.  On the straight equator chain
`1 → 2 → 3` the search succeeds and returns the raw distance sum
`2 * oneDegree`, while the terminal search state's recorded gScore is the
penalty-weighted `2.1 * oneDegree`; the two differ. -/
theorem claim_C4_counterexample :
    findPath 10 1 3 graphC4 nodesC4 = .found [1, 2, 3] (2 * oneDegree) ∧
    findPathTerminalGScore 10 1 3 graphC4 nodesC4 = some (2.1 * oneDegree) ∧
    (2 : ℝ) * oneDegree ≠ 2.1 * oneDegree := by
  refine ⟨?_, ?_, ?_⟩
  · simp only [findPath, searchLoop_unfold, c4_step1, c4_step2, c4_step3]
    norm_num
    simp only [c4st2, c4_recon]
  · simp only [findPathTerminalGScore, searchLoop_unfold, c4_step1, c4_step2, c4_step3]
    norm_num
    simp only [c4st2, alFind]
    norm_num
    ring
  · have := oneDegree_pos
    intro h
    nlinarith

theorem recon_invariant (cf : List ((ℕ × Option ℕ) × (ℕ × Option ℕ)))
    (nodes : ℕ → Option Coord)
    (hcoh : ∀ k v, alFind cf k = some v → k.2 = some v.1) :
    ∀ (fuel : ℕ) (h : ℕ) (t : List ℕ) (total : ℝ) (p : Option ℕ)
      (pa : List ℕ) (d : ℝ),
      reconstructGo fuel cf nodes (h :: t) total (h, p) (p.bind nodes) =
        some (pa, d) →
      d + pathDistance nodes (h :: t) = total + pathDistance nodes pa := by
  intro fuel
  induction fuel with
  | zero => intro h t total p pa d hrun; simp [reconstructGo] at hrun
  | succ fuel ih =>
    intro h t total p pa d hrun
    simp only [reconstructGo] at hrun
    cases hfind : alFind cf (h, p) with
    | none =>
      rw [hfind] at hrun
      simp only [Option.some.injEq, Prod.mk.injEq] at hrun
      rw [← hrun.1, ← hrun.2]
    | some k' =>
      obtain ⟨c2, p2⟩ := k'
      rw [hfind] at hrun
      have hp : p = some c2 := hcoh (h, p) (c2, p2) hfind
      subst hp
      have hbind : (some c2).bind nodes = nodes c2 := rfl
      rw [show ((some c2).bind nodes).getD (⟨0, 0⟩ : Coord) = coordD nodes c2 from rfl]
        at hrun
      have := ih c2 (h :: t) (total + haversineDistance
        (coordD nodes ((h :: t).headD 0)) (coordD nodes c2)) p2 pa d hrun
      simp only [List.headD_cons] at this
      have hpd : pathDistance nodes (c2 :: h :: t) =
          haversineDistance (coordD nodes h) (coordD nodes c2) +
            pathDistance nodes (h :: t) := rfl
      linarith [this]

/-- C4 (amended): whenever the search succeeds, the value returned as the
route's distance is the sum of the unpenalized haversine distances along
the reconstructed path (for any predecessor table of the shape the search
produces, i.e. where the entry for `(n, prev)` records `prev` as its
current node) — not the terminal state's penalty-weighted recorded score,
which differs from it in general. -/
theorem claim_C4_theorem (cf : List ((ℕ × Option ℕ) × (ℕ × Option ℕ)))
    (nodes : ℕ → Option Coord) (c : ℕ) (p : Option ℕ) (pa : List ℕ) (d : ℝ)
    (hcoh : ∀ k v, alFind cf k = some v → k.2 = some v.1)
    (h : reconstructPath cf c p nodes = some (pa, d)) :
    d = pathDistance nodes pa := by
  have := recon_invariant cf nodes hcoh (cf.length + 1) c [] 0 p pa d h
  have hnil : pathDistance nodes [c] = 0 := rfl
  rw [hnil] at this
  linarith

theorem c4_coherent :
    ∀ k v, alFind [((2, some 1), (1, none)), ((3, some 2), (2, some 1))] k =
      some v → k.2 = some v.1 := by
  intro k v h
  simp only [alFind] at h
  by_cases h1 : ((2, some 1) : ℕ × Option ℕ) = k
  · rw [if_pos h1] at h
    simp only [Option.some.injEq] at h
    rw [← h1, ← h]
  · rw [if_neg h1] at h
    by_cases h2 : ((3, some 2) : ℕ × Option ℕ) = k
    · rw [if_pos h2] at h
      simp only [Option.some.injEq] at h
      rw [← h2, ← h]
    · rw [if_neg h2] at h
      exact absurd h (by simp)

/-- Witness for the amended C4: the concrete successful run of the equator
chain satisfies the distance-sum characterization. -/
theorem claim_C4_witness :
    (2 : ℝ) * oneDegree = pathDistance nodesC4 [1, 2, 3] :=
  claim_C4_theorem [((2, some 1), (1, none)), ((3, some 2), (2, some 1))]
    nodesC4 3 (some 2) [1, 2, 3] (2 * oneDegree) c4_coherent c4_recon

theorem searchLoop_next (f e : ℕ) (g : ℕ → Option (List ℕ))
    (n : ℕ → Option Coord) (st st' : LoopState)
    (h : stepOnce e g n st = .next st') :
    searchLoop (f + 1) e g n st = searchLoop f e g n st' := by
  simp only [searchLoop, h]

theorem c6_avail12 : availableTurns nodesC6 (some 1) 2 [3] = [(Turn.straight, 3)] := by
  simp [availableTurns, coordD, nodesC6, calcAngle_o_o_o, classify_zero]

theorem c6_avail23 : availableTurns nodesC6 (some 2) 3 [1] = [(Turn.straight, 1)] := by
  simp [availableTurns, coordD, nodesC6, calcAngle_o_o_o, classify_zero]

theorem c6_avail31 : availableTurns nodesC6 (some 3) 1 [2] = [(Turn.straight, 2)] := by
  simp [availableTurns, coordD, nodesC6, calcAngle_o_o_o, classify_zero]

theorem c6_tp (nb : ℕ) : turnsToProcess [(Turn.straight, nb)] = [(Turn.straight, nb)] := by
  simp [turnsToProcess, isLeftPair, isStraightPair]

theorem c6_step0 : stepOnce 4 graphC6 nodesC6 (initLoopState 1 4 nodesC6) =
    .next c6s1 := by
  simp only [stepOnce, initLoopState, processState, graphC6, Option.getD_some]
  norm_num [availableTurns_none, c6_tp]
  simp [List.foldl_cons, List.foldl_nil, relaxTurn, alFind, alUpdate, pqInsert,
    coordD, nodesC6, c6s1, hav_self, hav_east01]

theorem c6_step1 : stepOnce 4 graphC6 nodesC6 c6s1 = .next c6s2 := by
  simp only [stepOnce, c6s1, processState, graphC6, Option.getD_some]
  norm_num [c6_avail12, c6_tp]
  simp [List.foldl_cons, List.foldl_nil, relaxTurn, alFind, alUpdate, pqInsert,
    coordD, nodesC6, c6s2, hav_self, hav_east01]

theorem c6_step2 : stepOnce 4 graphC6 nodesC6 c6s2 = .next c6s3 := by
  simp only [stepOnce, c6s2, processState, graphC6, Option.getD_some]
  norm_num [c6_avail23, c6_tp]
  simp [List.foldl_cons, List.foldl_nil, relaxTurn, alFind, alUpdate, pqInsert,
    coordD, nodesC6, c6s3, hav_self, hav_east01]

theorem c6_step3 : stepOnce 4 graphC6 nodesC6 c6s3 = .next c6s4 := by
  simp only [stepOnce, c6s3, processState, graphC6, Option.getD_some]
  norm_num [c6_avail31, c6_tp]
  simp [List.foldl_cons, List.foldl_nil, relaxTurn, alFind, alUpdate, pqInsert,
    coordD, nodesC6, c6s4, hav_self, hav_east01]

theorem c6_step4 : stepOnce 4 graphC6 nodesC6 c6s4 = .next c6s5 := by
  simp only [stepOnce, c6s4, processState, graphC6, Option.getD_some]
  norm_num [c6_avail12, c6_tp]
  simp [List.foldl_cons, List.foldl_nil, relaxTurn, alFind, alUpdate, pqInsert,
    coordD, nodesC6, c6s5, c6s4, hav_self, hav_east01]

theorem c6_step5 : stepOnce 4 graphC6 nodesC6 c6s5 = .next c6s6 := by
  simp only [stepOnce, c6s5, c6s4, processState, graphC6, Option.getD_some]
  norm_num [c6_avail23, c6_tp]
  simp [List.foldl_cons, List.foldl_nil, relaxTurn, alFind, alUpdate, pqInsert,
    coordD, nodesC6, c6s6, c6s4, hav_self, hav_east01]

theorem c6_step6 : stepOnce 4 graphC6 nodesC6 c6s6 = .next c6s4 := by
  simp only [stepOnce, c6s6, c6s4, processState, graphC6, Option.getD_some]
  norm_num [c6_avail31, c6_tp]
  simp [List.foldl_cons, List.foldl_nil, relaxTurn, alFind, alUpdate, pqInsert,
    coordD, nodesC6, c6s4, hav_self, hav_east01]

theorem c6_cycle (n : ℕ) :
    searchLoop n 4 graphC6 nodesC6 c6s4 = .outOfFuel ∧
    searchLoop n 4 graphC6 nodesC6 c6s5 = .outOfFuel ∧
    searchLoop n 4 graphC6 nodesC6 c6s6 = .outOfFuel := by
  induction n with
  | zero => exact ⟨rfl, rfl, rfl⟩
  | succ n ih =>
    refine ⟨?_, ?_, ?_⟩
    · rw [searchLoop_next n 4 graphC6 nodesC6 c6s4 c6s5 c6_step4]
      exact ih.2.1
    · rw [searchLoop_next n 4 graphC6 nodesC6 c6s5 c6s6 c6_step5]
      exact ih.2.2
    · rw [searchLoop_next n 4 graphC6 nodesC6 c6s6 c6s4 c6_step6]
      exact ih.1

theorem c6_all (n : ℕ) :
    searchLoop n 4 graphC6 nodesC6 (initLoopState 1 4 nodesC6) = .outOfFuel := by
  rcases n with _ | _ | _ | _ | m
  · rfl
  · exact (searchLoop_next 0 4 graphC6 nodesC6 _ c6s1 c6_step0).trans rfl
  · exact ((searchLoop_next 1 4 graphC6 nodesC6 _ c6s1 c6_step0).trans
      (searchLoop_next 0 4 graphC6 nodesC6 c6s1 c6s2 c6_step1)).trans rfl
  · exact (((searchLoop_next 2 4 graphC6 nodesC6 _ c6s1 c6_step0).trans
      (searchLoop_next 1 4 graphC6 nodesC6 c6s1 c6s2 c6_step1)).trans
      (searchLoop_next 0 4 graphC6 nodesC6 c6s2 c6s3 c6_step2)).trans rfl
  · calc searchLoop (m + 4) 4 graphC6 nodesC6 (initLoopState 1 4 nodesC6)
        = searchLoop (m + 3) 4 graphC6 nodesC6 c6s1 :=
          searchLoop_next (m + 3) 4 graphC6 nodesC6 _ c6s1 c6_step0
      _ = searchLoop (m + 2) 4 graphC6 nodesC6 c6s2 :=
          searchLoop_next (m + 2) 4 graphC6 nodesC6 c6s1 c6s2 c6_step1
      _ = searchLoop (m + 1) 4 graphC6 nodesC6 c6s3 :=
          searchLoop_next (m + 1) 4 graphC6 nodesC6 c6s2 c6s3 c6_step2
      _ = searchLoop m 4 graphC6 nodesC6 c6s4 :=
          searchLoop_next m 4 graphC6 nodesC6 c6s3 c6s4 c6_step3
      _ = .outOfFuel := (c6_cycle m).1

/-- C6: the claim is right about the intended design but the code violates
it.  On the cycle `1 → 2 → 3 → 1` of three coincident nodes (goal 4
disconnected), every state of the cycle keeps the recorded score `0`;
because `!gScore[key]` treats a recorded `0` as missing, each revisit is
re-accepted and re-enqueued, and the `while` loop never terminates: for
every fuel bound the loop is still running. -/
theorem claim_C6_theorem (fuel : ℕ) :
    findPath fuel 1 4 graphC6 nodesC6 = .outOfFuel := by
  simp only [findPath, c6_all fuel]

theorem hav_lat10 : haversineDistance ⟨1, 0⟩ ⟨0, 0⟩ = oneDegree := by
  rw [hav_formula ⟨1, 0⟩ ⟨0, 0⟩ (π / 360) (by positivity) (by nlinarith [pi_pos])
    (by norm_num; rw [show (-π / 180 / 2 : ℝ) = -(π / 360) by ring,
      Real.sin_neg, neg_mul_neg])]
  simp only [oneDegree]
  ring

theorem pqInsert_nil {α : Type} (x : α) (p : ℝ) : pqInsert x p [] = [(x, p)] := rfl

theorem pqInsert_le {α : Type} (x y : α) (p q : ℝ) (r : List (α × ℝ))
    (h : q ≤ p) : pqInsert x p ((y, q) :: r) = (y, q) :: pqInsert x p r := by
  simp [pqInsert, if_pos h]

theorem pqInsert_gt {α : Type} (x y : α) (p q : ℝ) (r : List (α × ℝ))
    (h : ¬q ≤ p) : pqInsert x p ((y, q) :: r) = (x, p) :: (y, q) :: r := by
  simp [pqInsert, if_neg h]

theorem c7_step0 : stepOnce 6 graphC7 nodesC7 (initLoopState 1 6 nodesC7) =
    .next c7s1 := by
  simp only [stepOnce, initLoopState, processState, graphC7, Option.getD_some]
  norm_num [availableTurns_none]
  rw [show turnsToProcess [(Turn.straight, 2), (Turn.straight, 4)] =
    [(Turn.straight, 2), (Turn.straight, 4)] by decide]
  simp [List.foldl_cons, List.foldl_nil, relaxTurn, alFind, alUpdate,
    coordD, nodesC7, c7s1, hav_self, hav_lat01, hav_lat10,
    pqInsert_nil]
  all_goals norm_num [mul_comm]
  rw [pqInsert_le _ _ _ _ _ (by nlinarith [oneDegree_pos]), pqInsert_nil]

theorem c7_avail12 : availableTurns nodesC7 (some 1) 2 [3] = [(Turn.straight, 3)] := by
  simp [availableTurns, coordD, nodesC7, calcAngle_o_o_o, classify_zero]

theorem c7_avail45 : availableTurns nodesC7 (some 1) 4 [5] = [(Turn.left, 5)] := by
  simp [availableTurns, coordD, nodesC7, calcAngle_left90, classify_neg90]

theorem c7_avail52 : availableTurns nodesC7 (some 4) 5 [2] = [(Turn.left, 2)] := by
  simp [availableTurns, coordD, nodesC7, calcAngle_left135a, classify_neg135]

theorem c7_avail23 : availableTurns nodesC7 (some 5) 2 [3] = [(Turn.left, 3)] := by
  simp [availableTurns, coordD, nodesC7, calcAngle_left135b, classify_neg135]

theorem c7_step1 : stepOnce 6 graphC7 nodesC7 c7s1 = .next c7s2 := by
  simp only [stepOnce, c7s1, processState, graphC7, Option.getD_some]
  norm_num [c7_avail12, c6_tp]
  simp [List.foldl_cons, List.foldl_nil, relaxTurn, alFind, alUpdate,
    coordD, nodesC7, c7s2, hav_self]
  rw [pqInsert_gt _ _ _ _ _ (by nlinarith [oneDegree_pos])]
  all_goals norm_num

theorem c7_step2 : stepOnce 6 graphC7 nodesC7 c7s2 =
    .next ⟨[((4, some 1), 1.05 * oneDegree + oneDegree)], c7s2.gScore, c7s2.cameFrom⟩ := by
  simp only [stepOnce, c7s2, processState, graphC7, Option.getD_some]
  norm_num
  simp [availableTurns, turnsToProcess, isLeftPair, isStraightPair, List.foldl_nil]

theorem c7_step3 : stepOnce 6 graphC7 nodesC7
    ⟨[((4, some 1), 1.05 * oneDegree + oneDegree)], c7s2.gScore, c7s2.cameFrom⟩ =
    .next c7s4 := by
  simp only [stepOnce, c7s2, processState, graphC7, Option.getD_some]
  norm_num [c7_avail45]
  rw [show turnsToProcess [(Turn.left, 5)] = [(Turn.left, 5)] by decide]
  simp [List.foldl_cons, List.foldl_nil, relaxTurn, alFind, alUpdate,
    coordD, nodesC7, c7s4, hav_self, pqInsert_nil, turn_left_ne_straight]
  all_goals norm_num

theorem c7_step4 : stepOnce 6 graphC7 nodesC7 c7s4 = .next c7s5 := by
  simp only [stepOnce, c7s4, processState, graphC7, Option.getD_some]
  norm_num [c7_avail52]
  rw [show turnsToProcess [(Turn.left, 2)] = [(Turn.left, 2)] by decide]
  simp [List.foldl_cons, List.foldl_nil, relaxTurn, alFind, alUpdate,
    coordD, nodesC7, c7s5, hav_self, pqInsert_nil, turn_left_ne_straight]
  all_goals norm_num

theorem c7_step5 : stepOnce 6 graphC7 nodesC7 c7s5 = .next c7s6 := by
  simp only [stepOnce, c7s5, processState, graphC7, Option.getD_some]
  norm_num [c7_avail23]
  rw [show turnsToProcess [(Turn.left, 3)] = [(Turn.left, 3)] by decide]
  simp [List.foldl_cons, List.foldl_nil, relaxTurn, alFind, alUpdate,
    coordD, nodesC7, c7s6, hav_self, pqInsert_nil, turn_left_ne_straight]
  all_goals norm_num

theorem stepN_next (n e : ℕ) (g : ℕ → Option (List ℕ)) (nd : ℕ → Option Coord)
    (st st' : LoopState) (h : stepOnce e g nd st = .next st') :
    stepN (n + 1) e g nd st = stepN n e g nd st' := by
  simp only [stepN, h]

/-- C7: the claim is right about the intended invariant but the code breaks
it.  In the run on `graphC7`/`nodesC7`, the state `(3, arrivedFrom 2)` is
first recorded with score 0 (reached through coincident nodes); three pops
later the same state is reached again with a strictly positive tentative
score, and because `!gScore[key]` treats the recorded 0 as missing, the
update is accepted and the recorded score increases from 0 to a positive
value. -/
theorem claim_C7_theorem :
    stepN 2 6 graphC7 nodesC7 (initLoopState 1 6 nodesC7) = some c7s2 ∧
    alFind c7s2.gScore (3, some 2) = some 0 ∧
    stepN 6 6 graphC7 nodesC7 (initLoopState 1 6 nodesC7) = some c7s6 ∧
    alFind c7s6.gScore (3, some 2) =
      some (1.05 * oneDegree + haversineDistance ⟨1, 0⟩ ⟨1, -1⟩ +
        haversineDistance ⟨1, -1⟩ ⟨0, 0⟩) ∧
    (0 : ℝ) < 1.05 * oneDegree + haversineDistance ⟨1, 0⟩ ⟨1, -1⟩ +
      haversineDistance ⟨1, -1⟩ ⟨0, 0⟩ := by
  refine ⟨?_, ?_, ?_, ?_, ?_⟩
  · exact ((stepN_next 1 6 graphC7 nodesC7 _ c7s1 c7_step0).trans
      (stepN_next 0 6 graphC7 nodesC7 c7s1 c7s2 c7_step1)).trans rfl
  · simp [c7s2, alFind]
  · exact (((((stepN_next 5 6 graphC7 nodesC7 _ c7s1 c7_step0).trans
      (stepN_next 4 6 graphC7 nodesC7 c7s1 c7s2 c7_step1)).trans
      (stepN_next 3 6 graphC7 nodesC7 c7s2 _ c7_step2)).trans
      ((stepN_next 2 6 graphC7 nodesC7 _ c7s4 c7_step3).trans
      (stepN_next 1 6 graphC7 nodesC7 c7s4 c7s5 c7_step4))).trans
      (stepN_next 0 6 graphC7 nodesC7 c7s5 c7s6 c7_step5)).trans rfl
  · simp [c7s6, alFind]
  · nlinarith [oneDegree_pos, hav_nonneg ⟨1, 0⟩ ⟨1, -1⟩, hav_nonneg ⟨1, -1⟩ ⟨0, 0⟩]

theorem buildGraph_eq_allSegments (nodesL : List (ℕ × Coord)) :
    ∀ (rest : List OsmElement) (g0 : ℕ → Option (List ℕ)),
      rest.foldl (fun g el =>
        match el with
        | .way ids ow => (waySegments ids).foldl
            (fun g' p => addSegment nodesL ow g' p) g
        | .node _ _ _ => g) g0 =
      (allSegments rest).foldl (addSegT nodesL) g0 := by
  intro rest
  induction rest with
  | nil => intro g0; simp [allSegments]
  | cons el r ih =>
    intro g0
    cases el with
    | node i la lo =>
      simp only [List.foldl_cons]
      rw [ih]
      simp [allSegments]
    | way ids ow =>
      simp only [List.foldl_cons]
      rw [ih]
      simp only [allSegments, List.flatMap_cons, List.foldl_append, List.foldl_map]
      rfl

theorem dom_pushEdge (a b n : ℕ) (g : ℕ → Option (List ℕ)) :
    ((pushEdge a b g) n).isSome = (g n).isSome := by
  simp only [pushEdge]
  by_cases h : n = a
  · subst h
    simp
  · rw [if_neg h]

theorem dom_addSegment (nodesL : List (ℕ × Coord)) (ow : Bool) (p : ℕ × ℕ)
    (n : ℕ) (g : ℕ → Option (List ℕ)) :
    ((addSegment nodesL ow g p) n).isSome = (g n).isSome := by
  simp only [addSegment]
  split_ifs <;> simp [dom_pushEdge]

theorem dom_foldSeg (nodesL : List (ℕ × Coord)) (n : ℕ) :
    ∀ (segs : List (ℕ × ℕ × Bool)) (g : ℕ → Option (List ℕ)),
      ((segs.foldl (addSegT nodesL) g) n).isSome = (g n).isSome := by
  intro segs
  induction segs with
  | nil => intro g; rfl
  | cons s r ih =>
    intro g
    simp only [List.foldl_cons, ih, addSegT, dom_addSegment]

theorem mem_pushEdge_self (a b : ℕ) (g : ℕ → Option (List ℕ))
    (h : (g a).isSome) : b ∈ ((pushEdge a b g) a).getD [] := by
  simp only [pushEdge, if_pos rfl]
  cases hg : g a with
  | none => rw [hg] at h; simp at h
  | some l => simp [hg]

theorem mem_pushEdge_mono (a b n x : ℕ) (g : ℕ → Option (List ℕ))
    (h : x ∈ (g n).getD []) : x ∈ ((pushEdge a b g) n).getD [] := by
  simp only [pushEdge]
  by_cases hn : n = a
  · subst hn
    cases hg : g n with
    | none => rw [hg] at h; simp at h
    | some l =>
      rw [hg] at h
      simp only [if_pos rfl, hg, Option.map_some, Option.getD_some] at h ⊢
      exact List.mem_append_left _ h
  · rw [if_neg hn]
    exact h

theorem mem_addSegment_mono (nodesL : List (ℕ × Coord)) (ow : Bool)
    (p : ℕ × ℕ) (n x : ℕ) (g : ℕ → Option (List ℕ))
    (h : x ∈ (g n).getD []) : x ∈ ((addSegment nodesL ow g p) n).getD [] := by
  simp only [addSegment]
  split_ifs <;>
    first
      | exact mem_pushEdge_mono _ _ _ _ _ (mem_pushEdge_mono _ _ _ _ _ h)
      | exact mem_pushEdge_mono _ _ _ _ _ h
      | exact h

theorem mem_foldSeg_mono (nodesL : List (ℕ × Coord)) (n x : ℕ) :
    ∀ (segs : List (ℕ × ℕ × Bool)) (g : ℕ → Option (List ℕ)),
      x ∈ (g n).getD [] → x ∈ ((segs.foldl (addSegT nodesL) g) n).getD [] := by
  intro segs
  induction segs with
  | nil => intro g h; exact h
  | cons s r ih =>
    intro g h
    simp only [List.foldl_cons]
    exact ih _ (mem_addSegment_mono _ _ _ _ _ _ h)

theorem mem_pushEdge_src (a b n x : ℕ) (g : ℕ → Option (List ℕ))
    (h : x ∈ ((pushEdge a b g) n).getD []) :
    x ∈ (g n).getD [] ∨ (n = a ∧ x = b) := by
  simp only [pushEdge] at h
  by_cases hn : n = a
  · subst hn
    rw [if_pos rfl] at h
    cases hg : g n with
    | none =>
      rw [hg] at h
      exact absurd h (by simp)
    | some l =>
      rw [hg] at h
      simp at h
      rcases h with h1 | h1
      · left
        simpa using h1
      · right
        exact ⟨rfl, h1⟩
  · rw [if_neg hn] at h
    exact Or.inl h

theorem mem_addSegment_src (nodesL : List (ℕ × Coord)) (ow : Bool)
    (p : ℕ × ℕ) (n x : ℕ) (g : ℕ → Option (List ℕ))
    (h : x ∈ ((addSegment nodesL ow g p) n).getD []) :
    x ∈ (g n).getD [] ∨ (n = p.1 ∧ x = p.2) ∨
      (n = p.2 ∧ x = p.1 ∧ ow = false) := by
  simp only [addSegment] at h
  by_cases hc2 : ow = false ∧ ((if (g p.1).isSome ∧ (alFind nodesL p.2).isSome
      then pushEdge p.1 p.2 g else g) p.2).isSome ∧ (alFind nodesL p.1).isSome
  · rw [if_pos hc2] at h
    rcases mem_pushEdge_src _ _ _ _ _ h with h4 | h4
    · by_cases hc1 : (g p.1).isSome ∧ (alFind nodesL p.2).isSome
      · rw [if_pos hc1] at h4
        rcases mem_pushEdge_src _ _ _ _ _ h4 with h5 | h5
        · exact Or.inl h5
        · exact Or.inr (Or.inl h5)
      · rw [if_neg hc1] at h4
        exact Or.inl h4
    · exact Or.inr (Or.inr ⟨h4.1, h4.2, hc2.1⟩)
  · rw [if_neg hc2] at h
    by_cases hc1 : (g p.1).isSome ∧ (alFind nodesL p.2).isSome
    · rw [if_pos hc1] at h
      rcases mem_pushEdge_src _ _ _ _ _ h with h4 | h4
      · exact Or.inl h4
      · exact Or.inr (Or.inl h4)
    · rw [if_neg hc1] at h
      exact Or.inl h

theorem mem_foldSeg_src (nodesL : List (ℕ × Coord)) (n x : ℕ) :
    ∀ (segs : List (ℕ × ℕ × Bool)) (g : ℕ → Option (List ℕ)),
      x ∈ ((segs.foldl (addSegT nodesL) g) n).getD [] →
      x ∈ (g n).getD [] ∨ ∃ s ∈ segs,
        (s.1 = n ∧ s.2.1 = x) ∨ (s.1 = x ∧ s.2.1 = n ∧ s.2.2 = false) := by
  intro segs
  induction segs with
  | nil => intro g h; exact Or.inl h
  | cons s r ih =>
    intro g h
    simp only [List.foldl_cons] at h
    rcases ih _ h with h1 | ⟨s', hs', hc⟩
    · rcases mem_addSegment_src _ _ _ _ _ _ h1 with h2 | h2 | h2
      · exact Or.inl h2
      · exact Or.inr ⟨s, List.mem_cons_self _ _, Or.inl ⟨h2.1.symm ▸ rfl, h2.2.symm ▸ rfl⟩⟩
      · exact Or.inr ⟨s, List.mem_cons_self _ _, Or.inr ⟨h2.2.1.symm ▸ rfl, h2.1.symm ▸ rfl, h2.2.2⟩⟩
    · exact Or.inr ⟨s', List.mem_cons_of_mem _ hs', hc⟩

theorem dom_addSegT (nodesL : List (ℕ × Coord)) (s : ℕ × ℕ × Bool) (n : ℕ)
    (g : ℕ → Option (List ℕ)) :
    ((addSegT nodesL g s) n).isSome = (g n).isSome := by
  simp only [addSegT, dom_addSegment]

theorem mem_foldSeg_of_seg (nodesL : List (ℕ × Coord)) (x y : ℕ) (ow : Bool)
    (hy : (alFind nodesL y).isSome) :
    ∀ (segs : List (ℕ × ℕ × Bool)) (g : ℕ → Option (List ℕ)),
      (x, y, ow) ∈ segs → (g x).isSome →
      y ∈ ((segs.foldl (addSegT nodesL) g) x).getD [] := by
  intro segs
  induction segs with
  | nil => intro g h; simp at h
  | cons s r ih =>
    intro g hmem hgx
    simp only [List.foldl_cons]
    rcases List.mem_cons.1 hmem with heq | hr
    · subst heq
      apply mem_foldSeg_mono
      have hfwd : y ∈ ((pushEdge x y g) x).getD [] := mem_pushEdge_self x y g hgx
      simp only [addSegT, addSegment]
      rw [if_pos (show (g x).isSome ∧ (alFind nodesL y).isSome from ⟨hgx, hy⟩)]
      split_ifs with h2
      · exact mem_pushEdge_mono _ _ _ _ _ hfwd
      · exact hfwd
    · exact ih _ hr (by rw [dom_addSegT]; exact hgx)

/-- C8: a one-way way segment `(X, Y)` with both endpoints registered adds
the directed edge `X → Y`, and the reverse edge `Y → X` can appear in the
adjacency of `Y` only if some way segment contributes it: either a segment
`(Y, X)` of some way, or a segment `(X, Y)` of a way that is not one-way.
The one-way segment itself never contributes the reverse edge. -/
theorem claim_C8_theorem (els : List OsmElement) (ids : List ℕ) (x y : ℕ)
    (hw : OsmElement.way ids true ∈ els)
    (hseg : (x, y) ∈ waySegments ids)
    (hx : (alFind (nodesOf els) x).isSome)
    (hy : (alFind (nodesOf els) y).isSome) :
    y ∈ ((buildGraph els).1 x).getD [] ∧
    (x ∈ ((buildGraph els).1 y).getD [] →
      ∃ s ∈ allSegments els,
        (s.1 = y ∧ s.2.1 = x) ∨ (s.1 = x ∧ s.2.1 = y ∧ s.2.2 = false)) := by
  have hseg' : ((x, y, true) : ℕ × ℕ × Bool) ∈ allSegments els := by
    simp only [allSegments, List.mem_flatMap]
    refine ⟨OsmElement.way ids true, hw, ?_⟩
    simp only [List.mem_map]
    exact ⟨(x, y), hseg, rfl⟩
  have hb : (buildGraph els).1 =
      (allSegments els).foldl (addSegT (nodesOf els)) (graphInit els) := by
    simp only [buildGraph]
    exact buildGraph_eq_allSegments (nodesOf els) els (graphInit els)
  have hinit : ((graphInit els) x).isSome := by
    simp only [graphInit]
    rw [if_pos hx]
    rfl
  constructor
  · rw [hb]
    exact mem_foldSeg_of_seg (nodesOf els) x y true hy (allSegments els)
      (graphInit els) hseg' hinit
  · intro hmem
    rw [hb] at hmem
    rcases mem_foldSeg_src (nodesOf els) y x (allSegments els) (graphInit els)
        hmem with h1 | h1
    · exfalso
      simp only [graphInit] at h1
      split_ifs at h1
      all_goals simp at h1
    · exact h1

/-- Witness for C8 on the concrete one-way way. -/
theorem claim_C8_witness :
    2 ∈ ((buildGraph elsC8).1 1).getD [] ∧
    (1 ∈ ((buildGraph elsC8).1 2).getD [] →
      ∃ s ∈ allSegments elsC8,
        (s.1 = 2 ∧ s.2.1 = 1) ∨ (s.1 = 1 ∧ s.2.1 = 2 ∧ s.2.2 = false)) :=
  claim_C8_theorem elsC8 [1, 2] 1 2 (by simp [elsC8])
    (by simp [waySegments]) (by rfl) (by rfl)

/-- C10: a request whose start or end has a latitude or longitude exactly 0
is answered with the 400 invalid-coordinates response regardless of the map
data and of any search fuel: the truthiness test `!start.lat` is true for
the number 0, so the handler returns before fetching results are consulted
or any routing runs. -/
theorem claim_C10_theorem (fuel : ℕ) (body : RouteBody)
    (osm : List OsmElement) (s f : JsCoordIn)
    (hs : body.start = some s) (hf : body.finish = some f)
    (hzero : s.lat = some 0 ∨ s.lng = some 0 ∨ f.lat = some 0 ∨ f.lng = some 0) :
    handleRoute fuel body osm = .badRequest := by
  have hv : falsyNum s.lat ∨ falsyNum s.lng ∨ falsyNum f.lat ∨ falsyNum f.lng := by
    rcases hzero with h | h | h | h
    · exact Or.inl (Or.inr h)
    · exact Or.inr (Or.inl (Or.inr h))
    · exact Or.inr (Or.inr (Or.inl (Or.inr h)))
    · exact Or.inr (Or.inr (Or.inr (Or.inr h)))
  simp only [handleRoute, hs, hf, if_pos hv]

/-- Witness for C10: a start latitude of exactly 0 on the equator is
rejected even with empty map data and no fuel. -/
theorem claim_C10_witness :
    handleRoute 0 ⟨some ⟨some 0, some 1⟩, some ⟨some 1, some 1⟩⟩ [] =
      .badRequest :=
  claim_C10_theorem 0 ⟨some ⟨some 0, some 1⟩, some ⟨some 1, some 1⟩⟩ []
    ⟨some 0, some 1⟩ ⟨some 1, some 1⟩ rfl rfl (Or.inl rfl)
